import Mathlib

/-!
# recordlite: the view-definition compiler

A shallow embedding of `table.go` (package `recordlite`): the data model, the
methods of `ViewDef` and `ColumnDef`, the five templates and `CompileViewDef`;
and of the choice of the input in `cmd/recordlite/main.go` (`mainSource`).

Conventions of the embedding.

* A Go `string` is a Lean `String`; Go strings are byte sequences, and the
  bytes of a Lean string are its UTF-8 encoding (`bytesOf`), which is what
  `[]byte(s)` yields for every string that `encoding/json` can produce.
* The five `text/template` templates are embedded after parsing: `mustParse`
  applies `strings.TrimSpace` to the template text, and the trim markers
  `{{-` and `-}}` remove the white space of the neighbouring text node. What
  remains is a fixed sequence of text nodes and actions, written here as one
  string-building function per template, in the order of the template.
* `crypto/sha1`, `strings.Trim`, `strings.Join` and the `%x` verb of `fmt`
  are library code; they are embedded from their published behaviour
  (FIPS 180-4 for SHA-1).
-/

namespace Recordlite

/-! ## Library functions used by the source -/

/-- The UTF-8 encoding of one code point, as byte values. -/
def utf8Bytes (c : Char) : List Nat :=
  let n := c.toNat
  if n < 0x80 then [n]
  else if n < 0x800 then [0xC0 + n / 64, 0x80 + n % 64]
  else if n < 0x10000 then [0xE0 + n / 4096, 0x80 + n / 64 % 64, 0x80 + n % 64]
  else [0xF0 + n / 262144, 0x80 + n / 4096 % 64, 0x80 + n / 64 % 64, 0x80 + n % 64]

/-- Go `[]byte(s)`: the bytes of a string. -/
def bytesOf (s : String) : List Nat := s.data.flatMap utf8Bytes

/-- Go `len(s)`: the number of bytes of a string. -/
def goLen (s : String) : Nat := (bytesOf s).length

/-- Rotate a 32-bit word left by `n` bits. -/
def rotl32 (x n : Nat) : Nat := ((x <<< n) ||| (x >>> (32 - n))) % 2 ^ 32

/-- Bitwise complement of a 32-bit word. -/
def not32 (x : Nat) : Nat := 2 ^ 32 - 1 - x % 2 ^ 32

/-- SHA-1 padding: the byte 0x80, zero bytes up to 56 modulo 64, and the
message length in bits as a 64-bit big-endian integer. -/
def sha1Pad (msg : List Nat) : List Nat :=
  let l := msg.length
  msg ++ 0x80 :: List.replicate ((119 - l % 64) % 64) 0 ++
    (List.range 8).map (fun i => (8 * l) >>> (8 * (7 - i)) % 256)

/-- Big-endian 32-bit words of a byte sequence. -/
def beWords : List Nat → List Nat
  | b0 :: b1 :: b2 :: b3 :: rest => (((b0 * 256 + b1) * 256 + b2) * 256 + b3) :: beWords rest
  | _ => []

/-- The message schedule of one block, most recent word first: `n` further
words are derived from the sixteen words of the block. -/
def schedule : Nat → List Nat → List Nat
  | 0, ws => ws
  | n + 1, ws =>
    schedule n (rotl32 (ws.getD 2 0 ^^^ ws.getD 7 0 ^^^ ws.getD 13 0 ^^^ ws.getD 15 0) 1 :: ws)

/-- The five 32-bit words of the SHA-1 chaining value. -/
structure Digest where
  h0 : Nat
  h1 : Nat
  h2 : Nat
  h3 : Nat
  h4 : Nat
deriving DecidableEq, Repr

/-- The initial chaining value of SHA-1. -/
def sha1Init : Digest := ⟨0x67452301, 0xEFCDAB89, 0x98BADCFE, 0x10325476, 0xC3D2E1F0⟩

/-- The round function of SHA-1 for round `t`. -/
def roundF (t b c d : Nat) : Nat :=
  if t < 20 then (b &&& c) ||| (not32 b &&& d)
  else if t < 40 then b ^^^ c ^^^ d
  else if t < 60 then (b &&& c) ||| (b &&& d) ||| (c &&& d)
  else b ^^^ c ^^^ d

/-- The round constant of SHA-1 for round `t`. -/
def roundK (t : Nat) : Nat :=
  if t < 20 then 0x5A827999 else if t < 40 then 0x6ED9EBA1
  else if t < 60 then 0x8F1BBCDC else 0xCA62C1D6

/-- One of the eighty rounds: `tw` is the round number and the schedule word. -/
def sha1Round (s : Digest) (tw : Nat × Nat) : Digest :=
  ⟨(rotl32 s.h0 5 + roundF tw.1 s.h1 s.h2 s.h3 + s.h4 + tw.2 + roundK tw.1) % 2 ^ 32,
   s.h0, rotl32 s.h1 30, s.h2, s.h3⟩

/-- The compression function: the chaining value after one block of sixteen words. -/
def sha1Block (h : Digest) (ws : List Nat) : Digest :=
  let r := ((schedule 64 ws.reverse).reverse.enum).foldl sha1Round h
  ⟨(h.h0 + r.h0) % 2 ^ 32, (h.h1 + r.h1) % 2 ^ 32, (h.h2 + r.h2) % 2 ^ 32,
   (h.h3 + r.h3) % 2 ^ 32, (h.h4 + r.h4) % 2 ^ 32⟩

/-- Split the padded message into blocks of sixteen words (`n` bounds the number of blocks). -/
def chunks16 : Nat → List Nat → List (List Nat)
  | 0, _ => []
  | n + 1, ws => if ws = [] then [] else ws.take 16 :: chunks16 n (ws.drop 16)

/-- The chaining value after the whole padded message. -/
def sha1Words (msg : List Nat) : Digest :=
  let ws := beWords (sha1Pad msg)
  (chunks16 ws.length ws).foldl sha1Block sha1Init

/-- The four bytes of a 32-bit word, big-endian. -/
def wordBytes (w : Nat) : List Nat :=
  [w / 2 ^ 24 % 256, w / 2 ^ 16 % 256, w / 2 ^ 8 % 256, w % 256]

/-- Go `sha1.Sum(data)`: the twenty bytes of the digest. -/
def sha1Sum (msg : List Nat) : List Nat :=
  let d := sha1Words msg
  wordBytes d.h0 ++ wordBytes d.h1 ++ wordBytes d.h2 ++ wordBytes d.h3 ++ wordBytes d.h4

/-- One lowercase hexadecimal digit. -/
def hexDigit (n : Nat) : Char := "0123456789abcdef".data.getD n '0'

/-- The `%x` verb of `fmt` on a byte array: two lowercase hexadecimal digits per byte. -/
def hexBytes (bs : List Nat) : String :=
  ⟨bs.flatMap fun b => [hexDigit (b / 16), hexDigit (b % 16)]⟩

/-- Go `strings.Trim(s, cutset)`: all leading and all trailing code points that
occur in `cutset` are removed. -/
def stringsTrim (s cutset : String) : String :=
  ⟨((s.data.dropWhile fun c => cutset.data.contains c).reverse.dropWhile
      fun c => cutset.data.contains c).reverse⟩

/-- Go `strings.Join(elems, sep)`. -/
def stringsJoin : List String → String → String
  | [], _ => ""
  | [a], _ => a
  | a :: b :: rest, sep => a ++ sep ++ stringsJoin (b :: rest) sep

/-! ## The data model (`table.go`, lines 11-35) -/

/-- One projected column. -/
structure ColumnDef where
  Name : String
  Expr : String
  WithIndex : Bool
deriving DecidableEq, Repr

/-- The schema description, the sole input of the compiler. -/
structure ViewDef where
  Name : String
  Columns : List ColumnDef
  SkipTriggers : Bool
  SkipIndices : Bool
  UnsafeDropOrphanIndices : Bool
deriving DecidableEq, Repr

/-! ## Methods and template helpers (`table.go`, lines 47-87) -/

/-- `func (t *ViewDef) Table() string`: `fmt.Sprintf("%s_raw", t.Name)`. -/
def ViewDef.Table (t : ViewDef) : String := t.Name ++ "_raw"

/-- `func (t *ViewDef) View() string`. -/
def ViewDef.View (t : ViewDef) : String := t.Name

/-- `func (c *ColumnDef) SelectExpr(last bool) string`:
`fmt.Sprintf("%s AS %s%s\n", c.Expr, c.Name, comma)`. -/
def ColumnDef.SelectExpr (c : ColumnDef) (isLast : Bool) : String :=
  let comma := if isLast then "" else ","
  c.Expr ++ " AS " ++ c.Name ++ comma ++ "\n"

/-- `const indexPrefix = "_col_expr"`. -/
def indexPrefix : String := "_col_expr"

/-- `func (c *ColumnDef) IndexName() string`:
`fmt.Sprintf("%s_%s_%x", indexPrefix, c.Name, sha1.Sum([]byte(c.Expr)))`. -/
def ColumnDef.IndexName (c : ColumnDef) : String :=
  indexPrefix ++ "_" ++ c.Name ++ "_" ++ hexBytes (sha1Sum (bytesOf c.Expr))

/-- `func (c *ColumnDef) CreateIndexStatement(table string) string`:
`fmt.Sprintf("CREATE INDEX IF NOT EXISTS %s\n  ON %s(%s);\n\n", c.IndexName(), table, c.Expr)`. -/
def ColumnDef.CreateIndexStatement (c : ColumnDef) (table : String) : String :=
  "CREATE INDEX IF NOT EXISTS " ++ c.IndexName ++ "\n  ON " ++ table ++ "(" ++ c.Expr ++ ");\n\n"

/-- The loop of `IndexNames`: `names = append(names, fmt.Sprintf("'%s'", col.IndexName()))`
for every column with `WithIndex`. -/
def indexNamesLoop (names : List String) : List ColumnDef → List String
  | [] => names
  | col :: rest =>
    if col.WithIndex then indexNamesLoop (names ++ ["'" ++ col.IndexName ++ "'"]) rest
    else indexNamesLoop names rest

/-- `func (t *ViewDef) IndexNames() string`. -/
def ViewDef.IndexNames (t : ViewDef) : String :=
  stringsJoin (indexNamesLoop [] t.Columns) ",\n    "

/-- The template function `last`: `(index + 1) == size`. -/
def last (index size : Nat) : Bool := (index + 1) == size

/-! ## The templates (`table.go`, lines 97-188) -/

/-- The template `table`. -/
def tableTemplate (v : ViewDef) : String :=
  "CREATE TABLE IF NOT EXISTS " ++ v.Table ++
    " (\n  id INTEGER PRIMARY KEY NOT NULL,\n  raw BLOB NOT NULL\n);"

/-- The `range` of the template `view`: the text `  ` and `SelectExpr` of each
column, `index` being the position of the first column of `cols`. -/
def viewRange (nCols : Nat) : Nat → List ColumnDef → String
  | _, [] => ""
  | index, val :: rest =>
    "  " ++ val.SelectExpr (last index nCols) ++ viewRange nCols (index + 1) rest

/-- The template `view`. -/
def viewTemplate (v : ViewDef) : String :=
  let nCols := v.Columns.length
  "DROP VIEW IF EXISTS " ++ v.View ++ ";\nCREATE VIEW IF NOT EXISTS " ++ v.View ++
    " AS\nSELECT\n  id,\n  raw" ++ (if v.Columns.isEmpty then "" else ",") ++ "\n" ++
    viewRange nCols 0 v.Columns ++ "FROM " ++ v.Table ++ ";"

/-- The template `triggers`. -/
def triggersTemplate (v : ViewDef) : String :=
  "DROP TRIGGER IF EXISTS " ++ v.View ++ "_insert;\n" ++
  "CREATE TRIGGER IF NOT EXISTS " ++ v.View ++ "_insert INSTEAD OF INSERT ON " ++ v.View ++ "\n" ++
  "BEGIN\n  INSERT INTO " ++ v.Table ++ "(raw) VALUES(NEW.raw);\nEND;\n\n" ++
  "DROP TRIGGER IF EXISTS " ++ v.View ++ "_update;\n" ++
  "CREATE TRIGGER IF NOT EXISTS " ++ v.View ++ "_update INSTEAD OF UPDATE ON " ++ v.View ++ "\n" ++
  "BEGIN\n  UPDATE " ++ v.Table ++ " SET raw = NEW.raw WHERE id = OLD.id;\nEND;\n\n" ++
  "DROP TRIGGER IF EXISTS " ++ v.View ++ "_delete;\n" ++
  "CREATE TRIGGER IF NOT EXISTS " ++ v.View ++ "_delete INSTEAD OF DELETE ON " ++ v.View ++ "\n" ++
  "BEGIN\n  DELETE FROM " ++ v.Table ++ " WHERE id = OLD.id;\nEND;"

/-- The `range` of the template `indices`: `CreateIndexStatement` of every
column with `WithIndex`, nothing for the others. -/
def indicesRange (table : String) : List ColumnDef → String
  | [] => ""
  | c :: rest =>
    (if c.WithIndex then c.CreateIndexStatement table else "") ++ indicesRange table rest

/-- The pattern of the `LIKE` condition of the cleanup statement:
`{{indexPrefix}}_%`. -/
def cleanupPattern : String := indexPrefix ++ "_%"

/-- The text of the template `indices` under `{{if $unsafe_drop}}`. -/
def cleanupStatement (v : ViewDef) : String :=
  "-- Delete all indices that were previously defined by us, but are not included\n" ++
  "-- in the lasted definition.\n" ++
  "PRAGMA writable_schema = 1;\n" ++
  "DELETE FROM sqlite_master\n" ++
  "  WHERE type = 'index' AND tbl_name = '" ++ v.Table ++ "' AND\n" ++
  "  (name LIKE '" ++ cleanupPattern ++ "' AND name NOT IN (" ++ v.IndexNames ++ "));\n" ++
  "PRAGMA writable_schema = 0;\n"

/-- The template `indices`. -/
def indicesTemplate (v : ViewDef) : String :=
  let table := v.Table
  let unsafeDrop := v.UnsafeDropOrphanIndices
  indicesRange table v.Columns ++ (if unsafeDrop then cleanupStatement v else "")

/-- The text of the template `root` under `{{if not .SkipTriggers}}`. -/
def triggersGroup (v : ViewDef) : String :=
  "--\n-- Triggers\n--\n\n" ++
  "-- The trigger helpers enable applications to write in the view and avoid\n" ++
  "-- the writing in the raw table. The restriction is that they can only reference\n" ++
  "-- the 'raw' column.\n\n" ++
  triggersTemplate v ++ "\n\n"

/-- The text of the template `root` under `{{if not .SkipIndices}}`. -/
def indicesGroup (v : ViewDef) : String :=
  "--\n-- Indices\n--\n\n" ++ indicesTemplate v ++ "\n"

/-- The template `root`. -/
def rootTemplate (v : ViewDef) : String :=
  "BEGIN EXCLUSIVE;\n\n" ++ tableTemplate v ++ "\n\n--\n-- View\n--\n\n" ++
    viewTemplate v ++ "\n\n" ++
    (if !v.SkipTriggers then triggersGroup v else "") ++
    (if !v.SkipIndices then indicesGroup v else "") ++
    "COMMIT;"

/-- `root.Execute(buf, def)`. Every field and method the templates name exists
on `ViewDef` and `ColumnDef` and none of the methods returns an error, so the
execution writes the whole text and returns no error. -/
def rootExecute (v : ViewDef) : Except String String := .ok (rootTemplate v)

/-- `func CompileViewDef(def *ViewDef) (string, error)`. -/
def CompileViewDef (v : ViewDef) : Except String String :=
  match rootExecute v with
  | .error err => .error ("pbql: failed executing template: " ++ err)
  | .ok buf => .ok (stringsTrim buf "\n")

/-! ## Vocabulary of the statements -/

/-- The text `pat` occurs somewhere in `s`. -/
def containsText (pat s : String) : Bool :=
  s.data.tails.any fun t => pat.data.isPrefixOf t

/-- The number of places of `s` at which the text `pat` starts. -/
def countText (pat s : String) : Nat :=
  (s.data.tails.filter fun t => pat.data.isPrefixOf t).length

/-- White space of SQL text. -/
def isSpace (c : Char) : Bool := c == ' ' || c == '\n' || c == '\t' || c == '\r'

/-- Every run of white space becomes one blank. -/
def squeezeChars : List Char → List Char
  | [] => []
  | [c] => [if isSpace c then ' ' else c]
  | c :: d :: rest =>
    if isSpace c then
      (if isSpace d then squeezeChars (d :: rest) else ' ' :: squeezeChars (d :: rest))
    else c :: squeezeChars (d :: rest)

/-- A text up to runs of white space. -/
def squeeze (s : String) : String := ⟨squeezeChars s.data⟩

/-- The text of one item of the select list of the view: `<Expr> AS <Name>`,
indented as the template indents it. -/
def selectItem (c : ColumnDef) : String := "  " ++ c.Expr ++ " AS " ++ c.Name

/-- The view of the end-to-end example of the specification. -/
def eventsView : ViewDef :=
  ⟨"events", [⟨"ts", "json_extract(raw,'$.ts')", true⟩], false, false, false⟩

/-- The column of `eventsView`. -/
def tsColumn : ColumnDef := ⟨"ts", "json_extract(raw,'$.ts')", true⟩

/-- A view with an empty name, no column, and triggers and indices skipped. -/
def emptyNameView : ViewDef := ⟨"", [], true, true, false⟩

/-- The column of `eventsView` with its expression rewritten cosmetically:
upper-case function name and a blank after the comma. -/
def tsColumnCosmetic : ColumnDef := ⟨"ts", "JSON_EXTRACT(raw, '$.ts')", true⟩

/-- The SQL operator `LIKE`, pattern first: `%` matches any sequence of
characters, `_` matches any single character, every other character of the
pattern matches itself. (SQLite also matches ASCII letters of the other case;
every match found here is a match of SQLite too.) -/
def likeMatch : List Char → List Char → Bool
  | [], s => s.isEmpty
  | p :: ps, s =>
    if p = '%' then s.tails.any fun t => likeMatch ps t
    else
      match s with
      | [] => false
      | c :: rest => (p == '_' || p == c) && likeMatch ps rest

/-- A view with one indexed column and the cleanup of orphan indices enabled. -/
def cleanupView : ViewDef :=
  ⟨"events", [⟨"ts", "json_extract(raw,'$.ts')", true⟩], true, false, true⟩

/-- A view with two indexed columns around a column without index, the cleanup
enabled. -/
def threeColumnView : ViewDef :=
  ⟨"t", [⟨"a", "A", true⟩, ⟨"b", "B", false⟩, ⟨"c", "C", true⟩], true, false, true⟩

/-- The list `p` occurs as a contiguous part of `s`. -/
def occursIn (p s : List Char) : Bool := s.tails.any fun t => p.isPrefixOf t

/-- The text `p` does not occur in `s`, and `s` does not end with a beginning of
`p`: whatever follows `s`, no occurrence of `p` starts inside `s`. -/
def Sealed (p s : List Char) : Prop :=
  ¬ p <:+: s ∧ ∀ q, q ≠ [] → q <+: p → ¬ q <:+ s

/-- The text `l` ends every occurrence of `p` that is under way when `l` starts:
no end of `p` starts `l`, `l` is not a part of `p`, and `l` is sealed. -/
def Closing (p l : List Char) : Prop :=
  (∀ t, t ≠ [] → t <:+ p → ¬ t <+: l) ∧ ¬ l <:+: p ∧ Sealed p l

/-- `Sealed` on strings. -/
def SealedS (p s : String) : Prop := Sealed p.data s.data

/-- The decision procedure of `Sealed`. -/
def sealedB (p s : List Char) : Bool :=
  !occursIn p s && p.inits.all fun q => q.isEmpty || !q.isSuffixOf s

/-- The decision procedure of `Closing`. -/
def closingB (p l : List Char) : Bool :=
  (p.tails.all fun t => t.isEmpty || !t.isPrefixOf l) && !occursIn l p && sealedB p l

/-- The text nodes of the templates `root` (without the trigger group), `table`,
`view` and `indices`, and the fixed parts of the format strings, as far as they
do not directly follow a value of the input. -/
def fixedTexts : List String :=
  ["BEGIN EXCLUSIVE;\n\n", "\n\n--\n-- View\n--\n\n", "\n\n", "COMMIT;",
   "CREATE TABLE IF NOT EXISTS ",
   " (\n  id INTEGER PRIMARY KEY NOT NULL,\n  raw BLOB NOT NULL\n);",
   "DROP VIEW IF EXISTS ", ",", "\n", "  ", "FROM ", ";",
   "--\n-- Indices\n--\n\n", "CREATE INDEX IF NOT EXISTS ", "_col_expr", "_", "\n  ON ", "(",
   "-- Delete all indices that were previously defined by us, but are not included\n",
   "-- in the lasted definition.\n", "PRAGMA writable_schema = 1;\n",
   "DELETE FROM sqlite_master\n", "  WHERE type = 'index' AND tbl_name = '",
   "' AND\n", "  (name LIKE '", "_%", "' AND name NOT IN (", "));\n",
   "PRAGMA writable_schema = 0;\n", "'", ",\n    "]

/-- The fixed texts that directly follow a value of the input (Name of the view,
Name or Expr of a column). -/
def followingTexts : List String :=
  ["_raw", ";\nCREATE VIEW IF NOT EXISTS ", " AS\nSELECT\n  id,\n  raw", " AS ", ",", "\n",
   "_", ");\n\n"]

/-- The conditions on a text `p` under which `p` occurs in a script without
trigger group only inside a value of the input. -/
def isolatedText (p : String) : Bool :=
  !p.data.isEmpty && fixedTexts.all (fun l => sealedB p.data l.data) &&
  followingTexts.all (fun l => closingB p.data l.data) &&
  "0123456789abcdef".data.all (fun c => !p.data.contains c)

/-- A view without triggers with a column whose expression is an SQL string
literal. -/
def quotingView : ViewDef :=
  ⟨"notes", [⟨"kind", "'CREATE TRIGGER'", false⟩], true, true, false⟩

/-- A view without columns, with the cleanup of orphan indices enabled. -/
def noColumnView : ViewDef := ⟨"t", [], true, false, true⟩

/-- A view without columns and without the cleanup. -/
def plainView : ViewDef := ⟨"t", [], false, false, false⟩

/-! ## The command (`cmd/recordlite/main.go`, lines 13-24) -/

/-- Where `main` reads the schema from. -/
inductive Source where
  | stdin : Source
  | file (path : String) : Source
deriving DecidableEq, Repr

/-- The outcome of the first statements of `main`: the source that is read, or
the run-time panic of an index out of range. -/
inductive Opened where
  | source (s : Source) : Opened
  | indexOutOfRange (index length : Nat) : Opened
deriving DecidableEq, Repr

/-- The choice of the input in `main`; `args` is `os.Args`, the program name
followed by the arguments:
`file := os.Stdin; if len(os.Args) > 0 { path := os.Args[1]; file, err = os.Open(path) ... }`.
Whether the file can be opened and read is outside the embedding. -/
def mainSource (args : List String) : Opened :=
  if args.length > 0 then
    match args[1]? with
    | some path => .source (.file path)
    | none => .indexOutOfRange 1 args.length
  else .source .stdin

/-- A row of the catalog `sqlite_master`, as far as the cleanup statement reads
it. -/
structure CatalogRow where
  type : String
  name : String
  tbl_name : String
deriving DecidableEq, Repr

/-- The single quote, which delimits an SQL string literal. -/
def quoteChar : Char := Char.ofNat 39

/-- The string literals of an SQL expression list, in order: the texts between
single quotes; what stands between two literals (comma, white space) is
skipped. The second argument is `none` outside a literal and holds the
characters read so far, last one first, inside one. Quotes doubled inside a
literal are not read as one quote. -/
def sqlLiterals : List Char → Option (List Char) → List (List Char)
  | [], _ => []
  | c :: rest, none =>
    if c = quoteChar then sqlLiterals rest (some []) else sqlLiterals rest none
  | c :: rest, some acc =>
    if c = quoteChar then acc.reverse :: sqlLiterals rest none
    else sqlLiterals rest (some (c :: acc))

/-- The `WHERE` clause of the cleanup statement, read by SQL on one row, for the
three texts that the template puts into it:
`type = 'index' AND tbl_name = '<table>' AND
(name LIKE '<pattern>' AND name NOT IN (<exclude>))`. -/
def cleanupWhere (table pattern exclude : String) (row : CatalogRow) : Bool :=
  row.type == "index" && row.tbl_name == table &&
    (likeMatch pattern.data row.name.data &&
      !(sqlLiterals exclude.data none).contains row.name.data)

/-- The script of `v` deletes the row from `sqlite_master`: the script holds the
cleanup statement (`SkipIndices` false, `UnsafeDropOrphanIndices` true) and the
row satisfies its `WHERE` clause, which the template fills with `Table`, the
pattern and `IndexNames`. -/
def cleanupDeletes (v : ViewDef) (row : CatalogRow) : Bool :=
  !v.SkipIndices && v.UnsafeDropOrphanIndices &&
    cleanupWhere v.Table cleanupPattern v.IndexNames row

/-- The view `events` of another compilation: the column `ts` is replaced by a
column `day`. -/
def laterEventsView : ViewDef :=
  ⟨"events", [⟨"day", "json_extract(raw,'$.day')", true⟩], false, false, true⟩

/-- A second view with the column of `eventsView`. -/
def auditView : ViewDef :=
  ⟨"audit", [⟨"who", "json_extract(raw,'$.who')", false⟩,
    ⟨"ts", "json_extract(raw,'$.ts')", true⟩], true, false, false⟩

/-- The lowercase hexadecimal digits. -/
def hexChars : List Char := "0123456789abcdef".data

/-- The text nodes of the templates `root`, `table`, `view` and `triggers`, of
the template `indices` before its cleanup statement, and the fixed parts of the
format strings, as far as they do not directly follow a value of the input. -/
def apartTexts : List String :=
  ["BEGIN EXCLUSIVE;\n\n", "\n\n--\n-- View\n--\n\n", "\n\n", "COMMIT;",
   "CREATE TABLE IF NOT EXISTS ",
   " (\n  id INTEGER PRIMARY KEY NOT NULL,\n  raw BLOB NOT NULL\n);",
   "DROP VIEW IF EXISTS ", ",", "\n", "  ", "FROM ", ";",
   "--\n-- Indices\n--\n\n", "CREATE INDEX IF NOT EXISTS ", "_col_expr", "_", "\n  ON ", "(",
   "--\n-- Triggers\n--\n\n",
   "-- The trigger helpers enable applications to write in the view and avoid\n",
   "-- the writing in the raw table. The restriction is that they can only reference\n",
   "-- the 'raw' column.\n\n",
   "DROP TRIGGER IF EXISTS ", "CREATE TRIGGER IF NOT EXISTS ",
   "BEGIN\n  INSERT INTO ", "(raw) VALUES(NEW.raw);\nEND;\n\n",
   "BEGIN\n  UPDATE ", " SET raw = NEW.raw WHERE id = OLD.id;\nEND;\n\n",
   "BEGIN\n  DELETE FROM ", " WHERE id = OLD.id;\nEND;"]

/-- The fixed texts that directly follow a value of the input in these
templates; the underscore and digest that follow the Name of a column in an
index name are apart (`hexGuard`). -/
def apartFollowing : List String :=
  ["_raw", ";\nCREATE VIEW IF NOT EXISTS ", " AS\nSELECT\n  id,\n  raw", " AS ", ",", "\n",
   ");\n\n", "_insert;\n", "_insert INSTEAD OF INSERT ON ", "_update;\n",
   "_update INSTEAD OF UPDATE ON ", "_delete;\n", "_delete INSTEAD OF DELETE ON "]

/-- The conditions under which no occurrence of `p` touches an underscore
followed by forty hexadecimal digits: `p` is shorter, does not start with an
underscore or a digit, and each of its ends that starts with an underscore
holds a character that is no digit. -/
def hexGuard (p : List Char) : Bool :=
  decide (p.length ≤ 40) &&
  (match p with
    | [] => false
    | c :: _ => !('_' :: hexChars).contains c) &&
  p.tails.all fun t =>
    match t with
    | [] => true
    | c :: rest => c != '_' || rest.any fun x => !hexChars.contains x

/-- The conditions on a text `p` under which `p` occurs in a script without
cleanup statement only inside a value of the input. -/
def apartText (p : String) : Bool :=
  apartTexts.all (fun l => sealedB p.data l.data) &&
  apartFollowing.all (fun l => closingB p.data l.data) &&
  hexGuard p.data

/-- A view with triggers and indices and without the cleanup, whose Name is a
beginning of `sqlite_master`. -/
def sqliteView : ViewDef :=
  ⟨"sqlite", [⟨"master", "json_extract(raw,'$.sqlite')", true⟩], false, false, false⟩

/-! ## Strings -/

theorem trim_bracketed (b e : Char) (m : List Char) (cut : String)
    (hb : b ∉ cut.data) (he : e ∉ cut.data) :
    stringsTrim ⟨b :: (m ++ [e])⟩ cut = ⟨b :: (m ++ [e])⟩ := by
  unfold stringsTrim
  congr 1
  simp [List.dropWhile_cons, hb, he]

theorem rootTemplate_shape (v : ViewDef) :
    ∃ m, rootTemplate v = ⟨'B' :: (m ++ [';'])⟩ := by
  refine ⟨"EGIN EXCLUSIVE;\n\n".data ++ (tableTemplate v ++ "\n\n--\n-- View\n--\n\n" ++
    viewTemplate v ++ "\n\n" ++
    (if !v.SkipTriggers then triggersGroup v else "") ++
    (if !v.SkipIndices then indicesGroup v else "")).data ++ "COMMIT".data, ?_⟩
  apply String.ext
  simp only [rootTemplate, String.data_append, List.append_assoc]
  rfl

theorem ite_not_eq (b : Bool) (x y : String) :
    (if !b then x else y) = (if b = false then x else y) := by
  cases b <;> rfl

/-- `strings.Trim` removes nothing from the text of the template `root`, and
the execution returns no error. -/
theorem CompileViewDef_eq (v : ViewDef) : CompileViewDef v = .ok (rootTemplate v) := by
  obtain ⟨m, hm⟩ := rootTemplate_shape v
  simp only [CompileViewDef, rootExecute, hm]
  rw [trim_bracketed _ _ _ _ (by decide) (by decide)]

theorem viewRange_join (n : Nat) : ∀ (cols : List ColumnDef) (i : Nat) (a : String),
    i + cols.length = n →
    stringsJoin (a :: cols.map selectItem) ",\n" ++ "\n" =
      a ++ (if cols.isEmpty then "" else ",") ++ "\n" ++ viewRange n i cols := by
  intro cols
  induction cols with
  | nil => intro i a _; simp [stringsJoin, viewRange]
  | cons c rest ih =>
    intro i a h
    have h1 : (i + 1) + rest.length = n := by simp at h; omega
    have hl : last i n = rest.isEmpty := by
      cases rest with
      | nil => simp [last] ; simp at h; omega
      | cons d r => simp [last]; simp at h; omega
    simp only [List.map_cons, stringsJoin, viewRange, ColumnDef.SelectExpr, hl]
    rw [String.append_assoc, String.append_assoc, ih (i + 1) (selectItem c) h1]
    apply String.ext
    simp [String.data_append, selectItem]

/-! ## The claims -/

/-- Claim C1 fails on the code: `CompileViewDef` has no check of `Name`; the view
with the empty name is compiled, without error, to a script whose raw table is
named `_raw`. -/
theorem C1_empty_name_counterexample :
    emptyNameView.Name = "" ∧
    CompileViewDef emptyNameView = .ok
      "BEGIN EXCLUSIVE;\n\nCREATE TABLE IF NOT EXISTS _raw (\n  id INTEGER PRIMARY KEY NOT NULL,\n  raw BLOB NOT NULL\n);\n\n--\n-- View\n--\n\nDROP VIEW IF EXISTS ;\nCREATE VIEW IF NOT EXISTS  AS\nSELECT\n  id,\n  raw\nFROM _raw;\n\nCOMMIT;" :=
  ⟨rfl, rfl⟩

/-- Claim C1, amended: for every ViewDef whose Name is the empty string,
`CompileViewDef` returns no error; it returns the script it generates for any
other name, which here opens the transaction, creates the table `_raw` and
recreates a view with the empty name. -/
theorem C1_empty_name_is_compiled (v : ViewDef) (h : v.Name = "") :
    (∀ e, CompileViewDef v ≠ .error e) ∧
    ∃ rest, CompileViewDef v = .ok
      ("BEGIN EXCLUSIVE;\n\nCREATE TABLE IF NOT EXISTS _raw (\n  id INTEGER PRIMARY KEY NOT NULL,\n  raw BLOB NOT NULL\n);\n\n--\n-- View\n--\n\nDROP VIEW IF EXISTS ;\nCREATE VIEW IF NOT EXISTS  AS\nSELECT\n  id,\n  raw" ++ rest) := by
  refine ⟨fun e he => ?_, ?_⟩
  · rw [CompileViewDef_eq] at he
    cases he
  · refine ⟨(if v.Columns.isEmpty then "" else ",") ++ "\n" ++
      viewRange v.Columns.length 0 v.Columns ++ "FROM " ++ v.Table ++ ";" ++ "\n\n" ++
      (if !v.SkipTriggers then triggersGroup v else "") ++
      (if !v.SkipIndices then indicesGroup v else "") ++ "COMMIT;", ?_⟩
    rw [CompileViewDef_eq]
    congr 1
    apply String.ext
    simp only [rootTemplate, tableTemplate, viewTemplate, ViewDef.Table, ViewDef.View, h,
      String.data_append, List.append_assoc]
    rfl

/-- The amended claim C1 at the view with the empty name and no column. -/
theorem C1_empty_name_is_compiled_witness :
    emptyNameView.Name = "" ∧
    ((∀ e, CompileViewDef emptyNameView ≠ .error e) ∧
    ∃ rest, CompileViewDef emptyNameView = .ok
      ("BEGIN EXCLUSIVE;\n\nCREATE TABLE IF NOT EXISTS _raw (\n  id INTEGER PRIMARY KEY NOT NULL,\n  raw BLOB NOT NULL\n);\n\n--\n-- View\n--\n\nDROP VIEW IF EXISTS ;\nCREATE VIEW IF NOT EXISTS  AS\nSELECT\n  id,\n  raw" ++ rest)) :=
  ⟨rfl, C1_empty_name_is_compiled emptyNameView rfl⟩

/-- Claim C2: the script of every ViewDef is, in this order, the transaction
open, the raw-table statement, the view statements, the trigger group exactly
when `SkipTriggers` is false, the index group exactly when `SkipIndices` is
false, and the transaction close; the groups are separated by blank lines and
SQL comment lines only. For the view `events` with the indexed column `ts` the
script, up to runs of white space, is the listed sequence of statements, with
one `CREATE INDEX`. -/
theorem C2_script_order :
    (∀ v : ViewDef, CompileViewDef v = .ok
      ("BEGIN EXCLUSIVE;" ++ "\n\n" ++ tableTemplate v ++ "\n\n--\n-- View\n--\n\n" ++
        viewTemplate v ++ "\n\n" ++
        (if v.SkipTriggers = false then triggersGroup v else "") ++
        (if v.SkipIndices = false then indicesGroup v else "") ++ "COMMIT;")) ∧
    (∀ v : ViewDef, ∃ rest, tableTemplate v =
      "CREATE TABLE IF NOT EXISTS " ++ v.Name ++ "_raw (" ++ rest) ∧
    (∀ v : ViewDef, ∃ rest, viewTemplate v =
      "DROP VIEW IF EXISTS " ++ v.Name ++ ";\nCREATE VIEW IF NOT EXISTS " ++ v.Name ++
        " AS\nSELECT\n" ++ rest) ∧
    (∀ v : ViewDef, ∃ rest, triggersGroup v =
      "--\n-- Triggers\n--\n\n" ++
      "-- The trigger helpers enable applications to write in the view and avoid\n" ++
      "-- the writing in the raw table. The restriction is that they can only reference\n" ++
      "-- the 'raw' column.\n\n" ++
      "DROP TRIGGER IF EXISTS " ++ v.Name ++ "_insert;\n" ++ rest) ∧
    (∀ v : ViewDef, indicesGroup v = "--\n-- Indices\n--\n\n" ++ indicesTemplate v ++ "\n") ∧
    (∃ script, CompileViewDef eventsView = .ok script ∧
      squeeze script =
        "BEGIN EXCLUSIVE;" ++ " " ++
        "CREATE TABLE IF NOT EXISTS events_raw (" ++
        " id INTEGER PRIMARY KEY NOT NULL, raw BLOB NOT NULL ); -- -- View -- " ++
        "DROP VIEW IF EXISTS events; CREATE VIEW IF NOT EXISTS events AS SELECT " ++
        "id, raw, json_extract(raw,'$.ts') AS ts" ++ " FROM events_raw; " ++
        "-- -- Triggers -- " ++
        "-- The trigger helpers enable applications to write in the view and avoid " ++
        "-- the writing in the raw table. The restriction is that they can only reference " ++
        "-- the 'raw' column. " ++
        "DROP TRIGGER IF EXISTS events_insert; " ++
        "CREATE TRIGGER IF NOT EXISTS events_insert INSTEAD OF INSERT ON events " ++
        "BEGIN INSERT INTO events_raw(raw) VALUES(NEW.raw); END; " ++
        "DROP TRIGGER IF EXISTS events_update; " ++
        "CREATE TRIGGER IF NOT EXISTS events_update INSTEAD OF UPDATE ON events " ++
        "BEGIN UPDATE events_raw SET raw = NEW.raw WHERE id = OLD.id; END; " ++
        "DROP TRIGGER IF EXISTS events_delete; " ++
        "CREATE TRIGGER IF NOT EXISTS events_delete INSTEAD OF DELETE ON events " ++
        "BEGIN DELETE FROM events_raw WHERE id = OLD.id; END; " ++
        "-- -- Indices -- " ++
        "CREATE INDEX IF NOT EXISTS " ++ tsColumn.IndexName ++
        " ON events_raw(json_extract(raw,'$.ts'));" ++ " " ++ "COMMIT;" ∧
      countText "CREATE INDEX" script = 1 ∧
      tsColumn.IndexName = "_col_expr_ts_bd893ed513bf00ae717d29fd81766926ae268d0c") := by
  refine ⟨fun v => ?_, fun v => ?_, fun v => ?_, fun v => ?_, fun v => rfl,
    ⟨_, CompileViewDef_eq eventsView, by decide!, by decide!, by decide!⟩⟩
  · rw [CompileViewDef_eq]
    have e : ("BEGIN EXCLUSIVE;" ++ "\n\n" : String) = "BEGIN EXCLUSIVE;\n\n" := rfl
    rw [e, rootTemplate, ite_not_eq, ite_not_eq]
  · refine ⟨"\n  id INTEGER PRIMARY KEY NOT NULL,\n  raw BLOB NOT NULL\n);", ?_⟩
    apply String.ext
    simp only [tableTemplate, ViewDef.Table, String.data_append, List.append_assoc]
    rfl
  · refine ⟨"  id,\n  raw" ++ (if v.Columns.isEmpty then "" else ",") ++ "\n" ++
      viewRange v.Columns.length 0 v.Columns ++ "FROM " ++ v.Table ++ ";", ?_⟩
    apply String.ext
    simp only [viewTemplate, ViewDef.View, String.data_append, List.append_assoc]
    rfl
  · refine ⟨"CREATE TRIGGER IF NOT EXISTS " ++ v.View ++ "_insert INSTEAD OF INSERT ON " ++
      v.View ++ "\n" ++
      "BEGIN\n  INSERT INTO " ++ v.Table ++ "(raw) VALUES(NEW.raw);\nEND;\n\n" ++
      "DROP TRIGGER IF EXISTS " ++ v.View ++ "_update;\n" ++
      "CREATE TRIGGER IF NOT EXISTS " ++ v.View ++ "_update INSTEAD OF UPDATE ON " ++
      v.View ++ "\n" ++
      "BEGIN\n  UPDATE " ++ v.Table ++ " SET raw = NEW.raw WHERE id = OLD.id;\nEND;\n\n" ++
      "DROP TRIGGER IF EXISTS " ++ v.View ++ "_delete;\n" ++
      "CREATE TRIGGER IF NOT EXISTS " ++ v.View ++ "_delete INSTEAD OF DELETE ON " ++
      v.View ++ "\n" ++
      "BEGIN\n  DELETE FROM " ++ v.Table ++ " WHERE id = OLD.id;\nEND;" ++ "\n\n", ?_⟩
    apply String.ext
    simp only [triggersGroup, triggersTemplate, ViewDef.View, String.data_append,
      List.append_assoc]

/-- Claim C3: the view statement is `DROP VIEW IF EXISTS <Name>;`, then
`CREATE VIEW IF NOT EXISTS <Name> AS SELECT`, then the select list, then
`FROM <Name>_raw;`. The select list is `id`, `raw` and one item
`<Expr> AS <Name>` per column, in the order of `Columns`, joined by a comma and
a line break: every item but the last one is followed by a comma. The script
contains this statement. -/
theorem C3_view_statement (v : ViewDef) :
    viewTemplate v =
      "DROP VIEW IF EXISTS " ++ v.Name ++ ";\n" ++
      "CREATE VIEW IF NOT EXISTS " ++ v.Name ++ " AS\nSELECT\n" ++
      stringsJoin ("  id" :: "  raw" ::
        v.Columns.map fun c => "  " ++ c.Expr ++ " AS " ++ c.Name) ",\n" ++
      "\nFROM " ++ v.Name ++ "_raw;" ∧
    (v.Columns.map fun c => "  " ++ c.Expr ++ " AS " ++ c.Name).length = v.Columns.length ∧
    (∀ (i : Nat) (h : i < v.Columns.length),
      (v.Columns.map fun c => "  " ++ c.Expr ++ " AS " ++ c.Name)[i]? =
        some ("  " ++ (v.Columns.get ⟨i, h⟩).Expr ++ " AS " ++ (v.Columns.get ⟨i, h⟩).Name)) ∧
    ∃ before after, CompileViewDef v = .ok (before ++ viewTemplate v ++ after) := by
  refine ⟨?_, by simp, fun i h => by simp [List.getElem?_eq_getElem h], ?_⟩
  · have hj := viewRange_join v.Columns.length v.Columns 0 "  raw" (by simp)
    have hm : (v.Columns.map fun c => "  " ++ c.Expr ++ " AS " ++ c.Name) =
        v.Columns.map selectItem := rfl
    rw [hm]
    simp only [stringsJoin, viewTemplate, ViewDef.View, ViewDef.Table]
    have l1 : (" AS\nSELECT\n  id,\n  raw" : String) = " AS\nSELECT\n" ++ "  id" ++ ",\n" ++ "  raw" :=
      rfl
    have l2 : ("\nFROM " : String) = "\n" ++ "FROM " := rfl
    have l3 : ("_raw;" : String) = "_raw" ++ ";" := rfl
    have l4 : (";\nCREATE VIEW IF NOT EXISTS " : String) = ";\n" ++ "CREATE VIEW IF NOT EXISTS " :=
      rfl
    have hj2 : ∀ t : String, stringsJoin ("  raw" :: v.Columns.map selectItem) ",\n" ++ ("\n" ++ t) =
        "  raw" ++ ((if v.Columns.isEmpty then "" else ",") ++
          ("\n" ++ (viewRange v.Columns.length 0 v.Columns ++ t))) := by
      intro t
      rw [← String.append_assoc, hj]
      simp only [String.append_assoc]
    rw [l1, l2, l3, l4]
    simp only [String.append_assoc]
    rw [hj2]
  · refine ⟨"BEGIN EXCLUSIVE;\n\n" ++ tableTemplate v ++ "\n\n--\n-- View\n--\n\n",
      "\n\n" ++ (if !v.SkipTriggers then triggersGroup v else "") ++
      (if !v.SkipIndices then indicesGroup v else "") ++ "COMMIT;", ?_⟩
    rw [CompileViewDef_eq, rootTemplate]
    simp only [String.append_assoc]

/-! ## The index name -/

theorem sha1Sum_length (msg : List Nat) : (sha1Sum msg).length = 20 := by
  simp [sha1Sum, wordBytes]

theorem sha1Sum_lt (msg : List Nat) : ∀ b ∈ sha1Sum msg, b < 256 := by
  intro b hb
  simp only [sha1Sum, wordBytes, List.cons_append, List.nil_append, List.mem_cons,
    List.mem_singleton, List.not_mem_nil, or_false] at hb
  rcases hb with h | h | h | h | h | h | h | h | h | h | h | h | h | h | h | h | h | h | h | h <;>
    (subst h; exact Nat.mod_lt _ (by decide))

theorem hexDigit_mem (n : Nat) : hexDigit n ∈ "0123456789abcdef".data := by
  by_cases h : n < 16
  · interval_cases n <;> decide
  · have : hexDigit n = '0' := by
      unfold hexDigit
      rw [List.getD_eq_default]
      simp only [not_lt] at h
      exact h
    rw [this]; decide

theorem hexBytes_data_length (bs : List Nat) : (hexBytes bs).data.length = 2 * bs.length := by
  induction bs with
  | nil => rfl
  | cons b rest ih =>
    simp only [hexBytes, List.flatMap_cons, List.length_append, List.length_cons,
      List.length_nil] at ih ⊢
    omega

theorem hexBytes_chars (bs : List Nat) : ∀ ch ∈ (hexBytes bs).data, ch ∈ "0123456789abcdef".data := by
  intro ch h
  simp only [hexBytes, List.mem_flatMap, List.mem_cons, List.mem_singleton, List.not_mem_nil,
    or_false] at h
  obtain ⟨b, _, hb | hb⟩ := h <;> (subst hb; exact hexDigit_mem _)

theorem utf8Bytes_hex : ∀ ch ∈ "0123456789abcdef".data, (utf8Bytes ch).length = 1 := by
  decide

theorem bytesOf_append (s t : String) : bytesOf (s ++ t) = bytesOf s ++ bytesOf t := by
  simp [bytesOf, String.data_append]

theorem goLen_append (s t : String) : goLen (s ++ t) = goLen s + goLen t := by
  simp [goLen, bytesOf_append]

theorem goLen_ascii : ∀ l : List Char, (∀ ch ∈ l, (utf8Bytes ch).length = 1) →
    goLen ⟨l⟩ = l.length := by
  intro l
  induction l with
  | nil => intro _; rfl
  | cons c rest ih =>
    intro h
    have h1 := h c (List.mem_cons_self _ _)
    have h2 := ih (fun ch hc => h ch (List.mem_cons_of_mem _ hc))
    simp only [goLen, bytesOf, List.flatMap_cons, List.length_append, List.length_cons] at h2 ⊢
    omega

theorem goLen_hexBytes (bs : List Nat) : goLen (hexBytes bs) = 2 * bs.length := by
  have h := goLen_ascii (hexBytes bs).data (fun ch hc => utf8Bytes_hex ch (hexBytes_chars bs ch hc))
  rw [hexBytes_data_length] at h
  exact h

/-- Claim C4: `IndexName` is `_col_expr_`, the Name of the column, an underscore
and the hexadecimal encoding of the SHA-1 digest of the bytes of Expr; the
encoding has 40 characters, all of them lowercase hexadecimal digits; the name
has `len(Name) + 51` bytes; and it is determined by Name and Expr. -/
theorem C4_index_name (c : ColumnDef) :
    c.IndexName = "_col_expr_" ++ c.Name ++ "_" ++ hexBytes (sha1Sum (bytesOf c.Expr)) ∧
    (sha1Sum (bytesOf c.Expr)).length = 20 ∧
    (hexBytes (sha1Sum (bytesOf c.Expr))).length = 40 ∧
    (∀ ch ∈ (hexBytes (sha1Sum (bytesOf c.Expr))).data, ch ∈ "0123456789abcdef".data) ∧
    goLen c.IndexName = goLen c.Name + 51 ∧
    (∀ c2 : ColumnDef, c2.Name = c.Name → c2.Expr = c.Expr → c2.IndexName = c.IndexName) := by
  have e : ("_col_expr_" : String) = indexPrefix ++ "_" := rfl
  refine ⟨by rw [e]; rfl, sha1Sum_length _, ?_, hexBytes_chars _, ?_, ?_⟩
  · show (hexBytes (sha1Sum (bytesOf c.Expr))).data.length = 40
    rw [hexBytes_data_length, sha1Sum_length]
  · simp only [ColumnDef.IndexName, goLen_append, goLen_hexBytes, sha1Sum_length]
    have h1 : goLen indexPrefix = 9 := by decide
    have h2 : goLen "_" = 1 := by decide
    omega
  · intro c2 h1 h2
    simp only [ColumnDef.IndexName, h1, h2]

theorem sha1Sum_abc :
    hexBytes (sha1Sum (bytesOf "abc")) = "a9993e364706816aba3e25717850c26c9cd0d89d" := by
  decide!

theorem string_infinite : Infinite String :=
  Infinite.of_injective (fun n : Nat => String.mk (List.replicate n 'a')) (by
    intro a b h
    have := congrArg (fun s => s.data.length) h
    simpa using this)

/-- SHA-1 maps infinitely many strings to finitely many digests: two different
strings have the same digest. -/
theorem sha1_collision_exists :
    ∃ x y : String, x ≠ y ∧ sha1Sum (bytesOf x) = sha1Sum (bytesOf y) := by
  haveI := string_infinite
  obtain ⟨x, y, hne, hxy⟩ := Finite.exists_ne_map_eq_of_infinite
    (fun s : String => fun i : Fin 20 =>
      (⟨(sha1Sum (bytesOf s)).getD i 0 % 256, Nat.mod_lt _ (by decide)⟩ : Fin 256))
  refine ⟨x, y, hne, ?_⟩
  apply List.ext_getElem (by rw [sha1Sum_length, sha1Sum_length])
  intro i h1 h2
  rw [sha1Sum_length] at h1
  have h := congrFun hxy ⟨i, h1⟩
  simp only [Fin.mk.injEq] at h
  have b1 := sha1Sum_lt (bytesOf x) _ (List.getElem_mem (l := sha1Sum (bytesOf x)) (by rw [sha1Sum_length]; exact h1))
  have b2 := sha1Sum_lt (bytesOf y) _ (List.getElem_mem (l := sha1Sum (bytesOf y)) h2)
  rw [List.getD_eq_getElem _ _ (by rw [sha1Sum_length]; exact h1),
    List.getD_eq_getElem _ _ h2, Nat.mod_eq_of_lt b1, Nat.mod_eq_of_lt b2] at h
  exact h

theorem hexDigit_inj : ∀ i < 16, ∀ j < 16, hexDigit i = hexDigit j → i = j := by
  decide

theorem hexBytes_inj : ∀ bs1 bs2 : List Nat, (∀ b ∈ bs1, b < 256) → (∀ b ∈ bs2, b < 256) →
    hexBytes bs1 = hexBytes bs2 → bs1 = bs2 := by
  intro bs1
  induction bs1 with
  | nil =>
    intro bs2 _ _ h
    cases bs2 with
    | nil => rfl
    | cons b r =>
      have := congrArg (fun s => s.data.length) h
      simp [hexBytes] at this
  | cons a r ih =>
    intro bs2 h1 h2 h
    cases bs2 with
    | nil =>
      have := congrArg (fun s => s.data.length) h
      simp [hexBytes] at this
    | cons b r2 =>
      have hd := congrArg String.data h
      simp only [hexBytes, List.flatMap_cons, List.cons_append, List.nil_append,
        List.cons.injEq] at hd
      obtain ⟨e1, e2, e3⟩ := hd
      have ha := h1 a (List.mem_cons_self _ _)
      have hb := h2 b (List.mem_cons_self _ _)
      have q := hexDigit_inj (a / 16) (by omega) (b / 16) (by omega) e1
      have m := hexDigit_inj (a % 16) (by omega) (b % 16) (by omega) e2
      have hab : a = b := by omega
      have hr := ih r2 (fun x hx => h1 x (List.mem_cons_of_mem _ hx))
        (fun x hx => h2 x (List.mem_cons_of_mem _ hx)) (by unfold hexBytes; rw [e3])
      rw [hab, hr]

/-- With the same Name, two index names are equal exactly when the digests are. -/
theorem indexName_eq_iff_of_name (c1 c2 : ColumnDef) (hn : c1.Name = c2.Name) :
    c1.IndexName = c2.IndexName ↔ sha1Sum (bytesOf c1.Expr) = sha1Sum (bytesOf c2.Expr) := by
  constructor
  · intro h
    have hd := congrArg String.data h
    simp only [ColumnDef.IndexName, hn, String.data_append, List.append_assoc] at hd
    have hh := List.append_cancel_left (List.append_cancel_left
      (List.append_cancel_left (List.append_cancel_left hd)))
    exact hexBytes_inj _ _ (sha1Sum_lt _) (sha1Sum_lt _) (String.ext hh)
  · intro h
    simp only [ColumnDef.IndexName, hn, h]

/-- Claim C5 fails on the code: the index name holds only the 160-bit SHA-1
digest of Expr, so two columns with the same Name and different Expr and the
same index name exist. -/
theorem C5_distinct_expr_counterexample :
    ¬ ∀ c1 c2 : ColumnDef, c1.Name = c2.Name → c1.Expr ≠ c2.Expr →
      c1.IndexName ≠ c2.IndexName := by
  intro h
  obtain ⟨x, y, hne, hxy⟩ := sha1_collision_exists
  exact h ⟨"n", x, true⟩ ⟨"n", y, true⟩ rfl hne
    ((indexName_eq_iff_of_name ⟨"n", x, true⟩ ⟨"n", y, true⟩ rfl).2 hxy)

/-- Claim C5, amended: two columns with identical Name whose Exprs have different
SHA-1 digests have different index names. -/
theorem C5_index_name_differs (c1 c2 : ColumnDef) (hn : c1.Name = c2.Name)
    (hd : sha1Sum (bytesOf c1.Expr) ≠ sha1Sum (bytesOf c2.Expr)) :
    c1.IndexName ≠ c2.IndexName :=
  fun h => hd ((indexName_eq_iff_of_name c1 c2 hn).1 h)

/-- The amended claim C5 at two expressions that differ in letter case and white space only. -/
theorem C5_index_name_differs_witness :
    tsColumn.Name = tsColumnCosmetic.Name ∧
    tsColumn.Expr ≠ tsColumnCosmetic.Expr ∧
    sha1Sum (bytesOf tsColumn.Expr) ≠ sha1Sum (bytesOf tsColumnCosmetic.Expr) ∧
    tsColumn.IndexName ≠ tsColumnCosmetic.IndexName :=
  ⟨rfl, by decide, by decide!,
    C5_index_name_differs tsColumn tsColumnCosmetic rfl (by decide!)⟩

/-! ## The index group -/

/-- Claim C6 fails on the code: the pattern of the cleanup statement is
`_col_expr_%`, whose three underscores are wildcards of `LIKE`; it matches the
name `xcol_expr_amount`, which does not start with `_col_expr_`, and the name
`acolbexprc`. -/
theorem C6_like_matches_foreign_name :
    cleanupPattern = "_col_expr_%" ∧
    (∀ v : ViewDef, ∃ before after, cleanupStatement v =
      before ++ "(name LIKE '" ++ cleanupPattern ++ "' AND name NOT IN (" ++ after) ∧
    likeMatch cleanupPattern.data "xcol_expr_amount".data = true ∧
    ¬ ("_col_expr_".data <+: "xcol_expr_amount".data) ∧
    likeMatch cleanupPattern.data "acolbexprc".data = true ∧
    ¬ ("_col_expr_".data <+: "acolbexprc".data) := by
  refine ⟨rfl, fun v => ?_, by decide, by decide, by decide, by decide⟩
  refine ⟨"-- Delete all indices that were previously defined by us, but are not included\n" ++
    "-- in the lasted definition.\n" ++
    "PRAGMA writable_schema = 1;\n" ++
    "DELETE FROM sqlite_master\n" ++
    "  WHERE type = 'index' AND tbl_name = '" ++ v.Table ++ "' AND\n" ++ "  ",
    v.IndexNames ++ "));\n" ++ "PRAGMA writable_schema = 0;\n", ?_⟩
  have l1 : ("  (name LIKE '" : String) = "  " ++ "(name LIKE '" := rfl
  rw [cleanupStatement, l1]
  simp only [String.append_assoc]

theorem join_cons (a : String) (l : List String) : String.join (a :: l) = a ++ String.join l := by
  apply String.ext
  simp [String.data_join]

theorem indexNamesLoop_eq : ∀ (cols : List ColumnDef) (names : List String),
    indexNamesLoop names cols =
      names ++ (cols.filter fun c => c.WithIndex).map fun c => "'" ++ c.IndexName ++ "'" := by
  intro cols
  induction cols with
  | nil => intro names; simp [indexNamesLoop]
  | cons c rest ih =>
    intro names
    cases h : c.WithIndex <;> simp [indexNamesLoop, h, ih]

theorem indicesRange_eq (table : String) : ∀ cols : List ColumnDef,
    indicesRange table cols =
      String.join ((cols.filter fun c => c.WithIndex).map fun c =>
        c.CreateIndexStatement table) := by
  intro cols
  induction cols with
  | nil => rfl
  | cons c rest ih =>
    cases h : c.WithIndex
    · simp only [indicesRange, h, List.filter_cons, ih]
      apply String.ext
      simp
    · simp only [indicesRange, h, List.filter_cons, ih, List.map_cons, join_cons, if_true]

/-- The script holds the text of the template `indices` when `SkipIndices` is false. -/
theorem script_holds_indices (v : ViewDef) (h : v.SkipIndices = false) :
    ∃ before after, CompileViewDef v = .ok (before ++ indicesTemplate v ++ after) := by
  refine ⟨"BEGIN EXCLUSIVE;\n\n" ++ tableTemplate v ++ "\n\n--\n-- View\n--\n\n" ++
    viewTemplate v ++ "\n\n" ++ (if !v.SkipTriggers then triggersGroup v else "") ++
    "--\n-- Indices\n--\n\n", "\n" ++ "COMMIT;", ?_⟩
  rw [CompileViewDef_eq, rootTemplate, h]
  simp only [Bool.not_false, if_true, indicesGroup, String.append_assoc]

/-- Claim C7: with `SkipIndices = false` and `UnsafeDropOrphanIndices = true`, the
index group is the `CREATE INDEX` statements of the columns with `WithIndex`, in
the order of `Columns`, followed by the cleanup statement, whose list after
`NOT IN` is the join of the single-quoted index names of the same columns in
the same order: every index the script creates is excluded from the deletion,
and the list names nothing else. -/
theorem C7_cleanup_excludes_created (v : ViewDef) (h1 : v.SkipIndices = false)
    (h2 : v.UnsafeDropOrphanIndices = true) :
    indicesTemplate v =
      String.join ((v.Columns.filter fun c => c.WithIndex).map fun c =>
        "CREATE INDEX IF NOT EXISTS " ++ c.IndexName ++ "\n  ON " ++ v.Name ++ "_raw(" ++
          c.Expr ++ ");\n\n") ++
      ("-- Delete all indices that were previously defined by us, but are not included\n" ++
       "-- in the lasted definition.\n" ++
       "PRAGMA writable_schema = 1;\n" ++
       "DELETE FROM sqlite_master\n" ++
       "  WHERE type = 'index' AND tbl_name = '" ++ v.Name ++ "_raw" ++ "' AND\n" ++
       "  (name LIKE '_col_expr_%' AND name NOT IN (" ++
       stringsJoin ((v.Columns.filter fun c => c.WithIndex).map fun c =>
         "'" ++ c.IndexName ++ "'") ",\n    " ++
       "));\n" ++
       "PRAGMA writable_schema = 0;\n") ∧
    v.IndexNames =
      stringsJoin ((v.Columns.filter fun c => c.WithIndex).map fun c =>
        "'" ++ c.IndexName ++ "'") ",\n    " ∧
    (∀ c ∈ v.Columns, c.WithIndex = true →
      ("'" ++ c.IndexName ++ "'") ∈
        (v.Columns.filter fun c => c.WithIndex).map fun c => "'" ++ c.IndexName ++ "'") ∧
    (∀ n ∈ (v.Columns.filter fun c => c.WithIndex).map fun c => "'" ++ c.IndexName ++ "'",
      ∃ c ∈ v.Columns, c.WithIndex = true ∧ n = "'" ++ c.IndexName ++ "'") ∧
    (∃ before after, CompileViewDef v = .ok (before ++ indicesTemplate v ++ after)) := by
  have hn : v.IndexNames =
      stringsJoin ((v.Columns.filter fun c => c.WithIndex).map fun c =>
        "'" ++ c.IndexName ++ "'") ",\n    " := by
    rw [ViewDef.IndexNames, indexNamesLoop_eq, List.nil_append]
  refine ⟨?_, hn, ?_, ?_, script_holds_indices v h1⟩
  · rw [indicesTemplate, indicesRange_eq, h2, if_pos rfl, cleanupStatement, hn]
    have e : cleanupPattern = "_col_expr_%" := rfl
    have l1 : ("_raw(" : String) = "_raw" ++ "(" := rfl
    have l2 : ("  (name LIKE '_col_expr_%' AND name NOT IN (" : String) =
        "  (name LIKE '" ++ "_col_expr_%" ++ "' AND name NOT IN (" := rfl
    rw [e]
    simp only [l1, l2, ColumnDef.CreateIndexStatement, ViewDef.Table, String.append_assoc]
  · intro c hc hw
    exact List.mem_map.2 ⟨c, List.mem_filter.2 ⟨hc, hw⟩, rfl⟩
  · intro n hn2
    obtain ⟨c, hc, rfl⟩ := List.mem_map.1 hn2
    obtain ⟨hc1, hc2⟩ := List.mem_filter.1 hc
    exact ⟨c, hc1, hc2, rfl⟩

/-- Claim C7 at a view with two indexed columns around a column without index. -/
theorem C7_cleanup_excludes_created_witness :
    threeColumnView.SkipIndices = false ∧ threeColumnView.UnsafeDropOrphanIndices = true ∧
    threeColumnView.IndexNames =
      "'_col_expr_a_6dcd4ce23d88e2ee9568ba546c007c63d9131c1b',\n    " ++
      "'_col_expr_c_32096c2e0eff33d844ee6d675407ace18289357d'" ∧
    threeColumnView.IndexNames =
      stringsJoin ((threeColumnView.Columns.filter fun c => c.WithIndex).map fun c =>
        "'" ++ c.IndexName ++ "'") ",\n    " :=
  ⟨rfl, rfl, by decide!, (C7_cleanup_excludes_created threeColumnView rfl rfl).2.1⟩

/-- Claim C8: with `SkipIndices = false` the index group starts with one statement
`CREATE INDEX IF NOT EXISTS <IndexName(c)> ON <Name>_raw(<c.Expr>);` for each
column `c` with `WithIndex`, in the order of `Columns`, and holds no such
statement for a column without `WithIndex`: the statements are as many as the
columns with `WithIndex`, and what follows them is the cleanup statement when
`UnsafeDropOrphanIndices` is set and nothing otherwise. -/
theorem C8_index_statements (v : ViewDef) (h : v.SkipIndices = false) :
    indicesTemplate v =
      String.join ((v.Columns.filter fun c => c.WithIndex).map fun c =>
        "CREATE INDEX IF NOT EXISTS " ++ c.IndexName ++ "\n  ON " ++ v.Name ++ "_raw(" ++
          c.Expr ++ ");\n\n") ++
      (if v.UnsafeDropOrphanIndices then cleanupStatement v else "") ∧
    ((v.Columns.filter fun c => c.WithIndex).map fun c =>
        "CREATE INDEX IF NOT EXISTS " ++ c.IndexName ++ "\n  ON " ++ v.Name ++ "_raw(" ++
          c.Expr ++ ");\n\n").length = v.Columns.countP (fun c => c.WithIndex) ∧
    (∀ c ∈ v.Columns.filter fun c => c.WithIndex, c ∈ v.Columns ∧ c.WithIndex = true) ∧
    (v.Columns.filter fun c => c.WithIndex).Sublist v.Columns ∧
    (∃ before after, CompileViewDef v = .ok (before ++ indicesTemplate v ++ after)) := by
  refine ⟨?_, ?_, ?_, List.filter_sublist _, script_holds_indices v h⟩
  · have l1 : ("_raw(" : String) = "_raw" ++ "(" := rfl
    rw [indicesTemplate, indicesRange_eq]
    simp only [l1, ColumnDef.CreateIndexStatement, ViewDef.Table, String.append_assoc]
  · rw [List.length_map, List.countP_eq_length_filter]
  · intro c hc
    exact List.mem_filter.1 hc

/-- Claim C8 at a view with two indexed columns around a column without index: two statements. -/
theorem C8_index_statements_witness :
    threeColumnView.SkipIndices = false ∧
    (∃ script, CompileViewDef threeColumnView = .ok script ∧
      countText "CREATE INDEX" script = 2) ∧
    indicesTemplate threeColumnView =
      String.join ((threeColumnView.Columns.filter fun c => c.WithIndex).map fun c =>
        "CREATE INDEX IF NOT EXISTS " ++ c.IndexName ++ "\n  ON " ++ threeColumnView.Name ++
          "_raw(" ++ c.Expr ++ ");\n\n") ++
      (if threeColumnView.UnsafeDropOrphanIndices then cleanupStatement threeColumnView
        else "") :=
  ⟨rfl, ⟨_, CompileViewDef_eq threeColumnView, by decide!⟩,
    (C8_index_statements threeColumnView rfl).1⟩

/-! ## Feature gating -/

theorem viewRange_congr (n : Nat) : ∀ (cols cols2 : List ColumnDef) (i : Nat),
    cols.map (fun c => (c.Name, c.Expr)) = cols2.map (fun c => (c.Name, c.Expr)) →
    viewRange n i cols = viewRange n i cols2 := by
  intro cols
  induction cols with
  | nil =>
    intro cols2 i h
    cases cols2 with
    | nil => rfl
    | cons d r => simp at h
  | cons c rest ih =>
    intro cols2 i h
    cases cols2 with
    | nil => simp at h
    | cons d r =>
      simp only [List.map_cons, List.cons.injEq, Prod.mk.injEq] at h
      obtain ⟨⟨hn, he⟩, hr⟩ := h
      simp only [viewRange, ColumnDef.SelectExpr, hn, he, ih r (i + 1) hr]

theorem viewTemplate_congr (v w : ViewDef) (hn : v.Name = w.Name)
    (hc : v.Columns.map (fun c => (c.Name, c.Expr)) = w.Columns.map (fun c => (c.Name, c.Expr))) :
    viewTemplate v = viewTemplate w := by
  have hl : v.Columns.length = w.Columns.length := by
    have := congrArg List.length hc
    simpa using this
  have he : v.Columns.isEmpty = w.Columns.isEmpty := by
    cases hv : v.Columns <;> cases hw : w.Columns <;> simp [hv, hw] at hl ⊢
  simp only [viewTemplate, ViewDef.View, ViewDef.Table, hn, hl, he,
    viewRange_congr w.Columns.length v.Columns w.Columns 0 hc]

/-- Claim C10: with `SkipIndices = true` the script does not depend on the
`WithIndex` flags nor on `UnsafeDropOrphanIndices`: two ViewDefs with
`SkipIndices = true` that agree on Name, on `SkipTriggers` and on the Name and
Expr of every column compile to the same script; in particular the script is
that of the same ViewDef with every `WithIndex` and `UnsafeDropOrphanIndices`
set to false, and it is the script without any index group. -/
theorem C10_skip_indices (v : ViewDef) (h : v.SkipIndices = true) :
    CompileViewDef v =
      CompileViewDef { v with
        Columns := v.Columns.map fun c => { c with WithIndex := false },
        UnsafeDropOrphanIndices := false } ∧
    (∀ w : ViewDef, w.SkipIndices = true → w.Name = v.Name →
      w.SkipTriggers = v.SkipTriggers →
      w.Columns.map (fun c => (c.Name, c.Expr)) = v.Columns.map (fun c => (c.Name, c.Expr)) →
      CompileViewDef w = CompileViewDef v) ∧
    CompileViewDef v = .ok
      ("BEGIN EXCLUSIVE;\n\n" ++ tableTemplate v ++ "\n\n--\n-- View\n--\n\n" ++
        viewTemplate v ++ "\n\n" ++
        (if v.SkipTriggers = false then triggersGroup v else "") ++ "COMMIT;") := by
  have gen : ∀ w : ViewDef, w.SkipIndices = true → w.Name = v.Name →
      w.SkipTriggers = v.SkipTriggers →
      w.Columns.map (fun c => (c.Name, c.Expr)) = v.Columns.map (fun c => (c.Name, c.Expr)) →
      CompileViewDef w = CompileViewDef v := by
    intro w hw hn ht hc
    rw [CompileViewDef_eq, CompileViewDef_eq, rootTemplate, rootTemplate, h, hw, ht,
      viewTemplate_congr w v hn hc]
    have e : ∀ x : String, (if (!true) = true then x else "") = "" := fun _ => rfl
    simp only [e, tableTemplate, triggersGroup, triggersTemplate, ViewDef.View, ViewDef.Table, hn]
  refine ⟨(gen { v with
      Columns := v.Columns.map fun c => { c with WithIndex := false },
      UnsafeDropOrphanIndices := false } h rfl rfl ?_).symm, gen, ?_⟩
  · simp [List.map_map, Function.comp_def]
  · rw [CompileViewDef_eq, rootTemplate, h, ite_not_eq]
    have e : (if (!true) = true then indicesGroup v else "") = "" := rfl
    rw [e, String.append_empty]

/-- Claim C10 at the view `events` with indices skipped. -/
theorem C10_skip_indices_witness :
    (⟨"events", [tsColumn], false, true, true⟩ : ViewDef).SkipIndices = true ∧
    CompileViewDef ⟨"events", [tsColumn], false, true, true⟩ =
      CompileViewDef ⟨"events", [⟨"ts", "json_extract(raw,'$.ts')", false⟩], false, true, false⟩ :=
  ⟨rfl, (C10_skip_indices ⟨"events", [tsColumn], false, true, true⟩ rfl).1⟩

/-! ## Occurrences of a text in a concatenation -/

theorem occursIn_iff (p s : List Char) : occursIn p s = true ↔ p <:+: s := by
  simp only [occursIn, List.any_eq_true, List.mem_tails, List.isPrefixOf_iff_prefix]
  constructor
  · rintro ⟨t, ht, hp⟩
    exact List.infix_iff_prefix_suffix.2 ⟨t, hp, ht⟩
  · intro h
    obtain ⟨t, hp, ht⟩ := List.infix_iff_prefix_suffix.1 h
    exact ⟨t, ht, hp⟩

theorem containsText_iff (p s : String) : containsText p s = true ↔ p.data <:+: s.data :=
  occursIn_iff p.data s.data

theorem containsText_false_iff (p s : String) :
    containsText p s = false ↔ ¬ p.data <:+: s.data := by
  rw [← containsText_iff, Bool.not_eq_true]

theorem sealedB_sound (p s : List Char) (h : sealedB p s = true) : Sealed p s := by
  simp only [sealedB, Bool.and_eq_true, Bool.not_eq_true', List.all_eq_true, List.mem_inits,
    Bool.or_eq_true, List.isEmpty_iff, List.isSuffixOf_iff_suffix] at h
  refine ⟨fun hi => ?_, fun q hq hp hs => ?_⟩
  · have := (occursIn_iff p s).2 hi
    rw [h.1] at this
    cases this
  · rcases h.2 q hp with h3 | h3
    · exact hq h3
    · rw [(List.isSuffixOf_iff_suffix).2 hs] at h3
      cases h3

theorem closingB_sound (p l : List Char) (h : closingB p l = true) : Closing p l := by
  simp only [closingB, Bool.and_eq_true, Bool.not_eq_true', List.all_eq_true, List.mem_tails,
    Bool.or_eq_true, List.isEmpty_iff] at h
  obtain ⟨⟨h1, h2⟩, h3⟩ := h
  refine ⟨fun t ht hs hp => ?_, fun hi => ?_, sealedB_sound p l h3⟩
  · rcases h1 t hs with h4 | h4
    · exact ht h4
    · rw [(List.isPrefixOf_iff_prefix).2 hp] at h4
      cases h4
  · have := (occursIn_iff l p).2 hi
    rw [h2] at this
    cases this

/-- An occurrence of `p` in `a ++ b` lies in `a`, lies in `b`, or is an end of `a`
followed by a beginning of `b`. -/
theorem infix_append_cases (p a b : List Char) (h : p <:+: a ++ b) :
    p <:+: a ∨ p <:+: b ∨
      ∃ p1 p2, p = p1 ++ p2 ∧ p1 ≠ [] ∧ p2 ≠ [] ∧ p1 <:+ a ∧ p2 <+: b := by
  obtain ⟨s, t, hst⟩ := h
  rw [List.append_assoc] at hst
  rcases List.append_eq_append_iff.1 hst with ⟨a2, ha, hb⟩ | ⟨c2, hs, hb⟩
  · -- a = s ++ a2, p ++ t = a2 ++ b
    rcases List.append_eq_append_iff.1 hb with ⟨x, hx, hy⟩ | ⟨y, hx, hy⟩
    · -- a2 = p ++ x
      left
      exact ⟨s, x, by rw [ha, hx, List.append_assoc]⟩
    · -- p = a2 ++ y, b = y ++ t
      by_cases h1 : a2 = []
      · right; left
        subst h1
        rw [List.nil_append] at hx
        exact ⟨[], t, by rw [hy, hx, List.nil_append]⟩
      · by_cases h2 : y = []
        · left
          subst h2
          rw [List.append_nil] at hx
          exact ⟨s, [], by rw [ha, hx, List.append_nil]⟩
        · right; right
          exact ⟨a2, y, hx, h1, h2, ⟨s, ha.symm⟩, ⟨t, hy.symm⟩⟩
  · right; left
    exact ⟨c2, t, by rw [hb, List.append_assoc]⟩

/-- An end of `a ++ b` is an end of `b`, or a non-empty end of `a` followed by `b`. -/
theorem suffix_append_cases (q a b : List Char) (h : q <:+ a ++ b) :
    q <:+ b ∨ ∃ q1, q1 ≠ [] ∧ q1 <:+ a ∧ q = q1 ++ b := by
  obtain ⟨s, hs⟩ := h
  rcases List.append_eq_append_iff.1 hs with ⟨a2, ha, hb⟩ | ⟨c2, hs2, hb⟩
  · by_cases h1 : a2 = []
    · left
      subst h1
      rw [List.nil_append] at hb
      exact ⟨[], by rw [hb, List.nil_append]⟩
    · right
      exact ⟨a2, h1, ⟨s, ha.symm⟩, hb⟩
  · left
    exact ⟨c2, hb.symm⟩

theorem sealed_append (p a b : List Char) (ha : Sealed p a) (hb : Sealed p b) :
    Sealed p (a ++ b) := by
  refine ⟨fun hi => ?_, fun q hq hp hs => ?_⟩
  · rcases infix_append_cases p a b hi with h | h | ⟨p1, p2, hp, h1, _, hs, _⟩
    · exact ha.1 h
    · exact hb.1 h
    · exact ha.2 p1 h1 ⟨p2, hp.symm⟩ hs
  · rcases suffix_append_cases q a b hs with h | ⟨q1, h1, hs1, hq1⟩
    · exact hb.2 q hq hp h
    · exact ha.2 q1 h1 (List.IsPrefix.trans ⟨b, hq1.symm⟩ hp) hs1

theorem sealed_user (p u l : List Char) (hu : ¬ p <:+: u) (hl : Closing p l) :
    Sealed p (u ++ l) := by
  obtain ⟨h1, h2, h3⟩ := hl
  refine ⟨fun hi => ?_, fun q hq hp hs => ?_⟩
  · rcases infix_append_cases p u l hi with h | h | ⟨p1, p2, hp, _, hn, _, hpre⟩
    · exact hu h
    · exact h3.1 h
    · exact h1 p2 hn ⟨p1, hp.symm⟩ hpre
  · rcases suffix_append_cases q u l hs with h | ⟨q1, _, _, hq1⟩
    · exact h3.2 q hq hp h
    · exact h2 (List.IsInfix.trans (List.IsSuffix.isInfix ⟨q1, hq1.symm⟩)
        (List.IsPrefix.isInfix hp))

theorem sealed_of_disjoint (p s : List Char) (hp : p ≠ []) (h : ∀ c ∈ s, c ∉ p) :
    Sealed p s := by
  refine ⟨fun hi => ?_, fun q hq hpre hs => ?_⟩
  · cases p with
    | nil => exact hp rfl
    | cons c r => exact h c (hi.subset (List.mem_cons_self _ _)) (List.mem_cons_self _ _)
  · cases q with
    | nil => exact hq rfl
    | cons c r =>
      exact h c (hs.subset (List.mem_cons_self _ _)) (hpre.subset (List.mem_cons_self _ _))

theorem sealed_nil (p : List Char) (hp : p ≠ []) : Sealed p [] :=
  sealed_of_disjoint p [] hp (fun _ h => by cases h)

/-! ## A text that occurs in no fixed part of the script -/

theorem sealedS_append (p a b : String) (ha : SealedS p a) (hb : SealedS p b) :
    SealedS p (a ++ b) := by
  unfold SealedS
  rw [String.data_append]
  exact sealed_append _ _ _ ha hb

theorem iso_ne (p : String) (h : isolatedText p = true) : p.data ≠ [] := by
  simp only [isolatedText, Bool.and_eq_true, Bool.not_eq_true', List.isEmpty_eq_false] at h
  exact h.1.1.1

theorem iso_fixed (p : String) (h : isolatedText p = true) (l : String) (hl : l ∈ fixedTexts) :
    SealedS p l := by
  simp only [isolatedText, Bool.and_eq_true, List.all_eq_true] at h
  exact sealedB_sound _ _ (h.1.1.2 l hl)

theorem iso_following (p : String) (h : isolatedText p = true) (l : String)
    (hl : l ∈ followingTexts) : Closing p.data l.data := by
  simp only [isolatedText, Bool.and_eq_true, List.all_eq_true] at h
  exact closingB_sound _ _ (h.1.2 l hl)

theorem iso_hex (p : String) (h : isolatedText p = true) (bs : List Nat) :
    SealedS p (hexBytes bs) := by
  have h2 := h
  simp only [isolatedText, Bool.and_eq_true, List.all_eq_true, Bool.not_eq_true'] at h2
  refine sealed_of_disjoint _ _ (iso_ne p h) (fun c hc hp => ?_)
  have := h2.2 c (hexBytes_chars bs c hc)
  simp [hp] at this

theorem iso_empty (p : String) (h : isolatedText p = true) : SealedS p "" :=
  sealed_nil _ (iso_ne p h)

/-- A value of the input in which `p` does not occur, followed by one of the
texts that follow values. -/
theorem iso_user (p : String) (h : isolatedText p = true) (u l : String)
    (hu : containsText p u = false) (hl : l ∈ followingTexts) : SealedS p (u ++ l) := by
  unfold SealedS
  rw [String.data_append]
  exact sealed_user _ _ _ ((containsText_false_iff p u).1 hu) (iso_following p h l hl)

theorem sealed_tableTemplate (p : String) (h : isolatedText p = true) (v : ViewDef)
    (hN : containsText p v.Name = false) : SealedS p (tableTemplate v) := by
  simp only [tableTemplate, ViewDef.Table]
  exact sealedS_append _ _ _ (sealedS_append _ _ _
    (iso_fixed p h _ (by simp [fixedTexts]))
    (iso_user p h _ _ hN (by simp [followingTexts])))
    (iso_fixed p h _ (by simp [fixedTexts]))

theorem sealed_SelectExpr (p : String) (h : isolatedText p = true) (c : ColumnDef)
    (hn : containsText p c.Name = false) (he : containsText p c.Expr = false) (b : Bool) :
    SealedS p (c.SelectExpr b) := by
  cases b
  · have e : c.SelectExpr false = (c.Expr ++ " AS ") ++ ((c.Name ++ ",") ++ "\n") := by
      simp only [ColumnDef.SelectExpr, String.append_assoc]
      rfl
    rw [e]
    exact sealedS_append _ _ _ (iso_user p h _ _ he (by simp [followingTexts]))
      (sealedS_append _ _ _ (iso_user p h _ _ hn (by simp [followingTexts]))
        (iso_fixed p h _ (by simp [fixedTexts])))
  · have e : c.SelectExpr true = (c.Expr ++ " AS ") ++ (c.Name ++ "\n") := by
      simp only [ColumnDef.SelectExpr, String.append_assoc]
      rfl
    rw [e]
    exact sealedS_append _ _ _ (iso_user p h _ _ he (by simp [followingTexts]))
      (iso_user p h _ _ hn (by simp [followingTexts]))

theorem sealed_viewRange (p : String) (h : isolatedText p = true) (n : Nat) :
    ∀ (cols : List ColumnDef) (i : Nat),
    (∀ c ∈ cols, containsText p c.Name = false ∧ containsText p c.Expr = false) →
    SealedS p (viewRange n i cols) := by
  intro cols
  induction cols with
  | nil => intro i _; exact iso_empty p h
  | cons c rest ih =>
    intro i hc
    have h1 := hc c (List.mem_cons_self _ _)
    simp only [viewRange]
    exact sealedS_append _ _ _ (sealedS_append _ _ _ (iso_fixed p h _ (by simp [fixedTexts]))
      (sealed_SelectExpr p h c h1.1 h1.2 _))
      (ih (i + 1) (fun d hd => hc d (List.mem_cons_of_mem _ hd)))

theorem sealed_viewTemplate (p : String) (h : isolatedText p = true) (v : ViewDef)
    (hN : containsText p v.Name = false)
    (hc : ∀ c ∈ v.Columns, containsText p c.Name = false ∧ containsText p c.Expr = false) :
    SealedS p (viewTemplate v) := by
  have e : viewTemplate v =
      "DROP VIEW IF EXISTS " ++ (v.Name ++ ";\nCREATE VIEW IF NOT EXISTS ") ++
      (v.Name ++ " AS\nSELECT\n  id,\n  raw") ++ (if v.Columns.isEmpty then "" else ",") ++
      "\n" ++ viewRange v.Columns.length 0 v.Columns ++ "FROM " ++ (v.Name ++ "_raw") ++ ";" := by
    simp only [viewTemplate, ViewDef.View, ViewDef.Table, String.append_assoc]
  rw [e]
  have hi : SealedS p (if v.Columns.isEmpty then "" else ",") := by
    split
    · exact iso_empty p h
    · exact iso_fixed p h _ (by simp [fixedTexts])
  exact sealedS_append _ _ _ (sealedS_append _ _ _ (sealedS_append _ _ _ (sealedS_append _ _ _
    (sealedS_append _ _ _ (sealedS_append _ _ _ (sealedS_append _ _ _ (sealedS_append _ _ _
    (iso_fixed p h _ (by simp [fixedTexts]))
    (iso_user p h _ _ hN (by simp [followingTexts])))
    (iso_user p h _ _ hN (by simp [followingTexts])))
    hi)
    (iso_fixed p h _ (by simp [fixedTexts])))
    (sealed_viewRange p h _ _ _ hc))
    (iso_fixed p h _ (by simp [fixedTexts])))
    (iso_user p h _ _ hN (by simp [followingTexts])))
    (iso_fixed p h _ (by simp [fixedTexts]))

theorem sealed_IndexName (p : String) (h : isolatedText p = true) (c : ColumnDef)
    (hn : containsText p c.Name = false) : SealedS p c.IndexName := by
  have e : c.IndexName =
      "_col_expr" ++ "_" ++ (c.Name ++ "_") ++ hexBytes (sha1Sum (bytesOf c.Expr)) := by
    simp only [ColumnDef.IndexName, indexPrefix, String.append_assoc]
  rw [e]
  exact sealedS_append _ _ _ (sealedS_append _ _ _ (sealedS_append _ _ _
    (iso_fixed p h _ (by simp [fixedTexts]))
    (iso_fixed p h _ (by simp [fixedTexts])))
    (iso_user p h _ _ hn (by simp [followingTexts])))
    (iso_hex p h _)

theorem sealed_CreateIndexStatement (p : String) (h : isolatedText p = true) (c : ColumnDef)
    (hn : containsText p c.Name = false) (he : containsText p c.Expr = false)
    (name : String) (hN : containsText p name = false) :
    SealedS p (c.CreateIndexStatement (name ++ "_raw")) := by
  have e : c.CreateIndexStatement (name ++ "_raw") =
      "CREATE INDEX IF NOT EXISTS " ++ c.IndexName ++ "\n  ON " ++ (name ++ "_raw") ++ "(" ++
        (c.Expr ++ ");\n\n") := by
    simp only [ColumnDef.CreateIndexStatement, String.append_assoc]
  rw [e]
  exact sealedS_append _ _ _ (sealedS_append _ _ _ (sealedS_append _ _ _ (sealedS_append _ _ _
    (sealedS_append _ _ _
    (iso_fixed p h _ (by simp [fixedTexts]))
    (sealed_IndexName p h c hn))
    (iso_fixed p h _ (by simp [fixedTexts])))
    (iso_user p h _ _ hN (by simp [followingTexts])))
    (iso_fixed p h _ (by simp [fixedTexts])))
    (iso_user p h _ _ he (by simp [followingTexts]))

theorem sealed_indicesRange (p : String) (h : isolatedText p = true) (name : String)
    (hN : containsText p name = false) : ∀ cols : List ColumnDef,
    (∀ c ∈ cols, containsText p c.Name = false ∧ containsText p c.Expr = false) →
    SealedS p (indicesRange (name ++ "_raw") cols) := by
  intro cols
  induction cols with
  | nil => intro _; exact iso_empty p h
  | cons c rest ih =>
    intro hc
    have h1 := hc c (List.mem_cons_self _ _)
    simp only [indicesRange]
    refine sealedS_append _ _ _ ?_ (ih (fun d hd => hc d (List.mem_cons_of_mem _ hd)))
    split
    · exact sealed_CreateIndexStatement p h c h1.1 h1.2 name hN
    · exact iso_empty p h

theorem sealed_stringsJoin (p sep : String) (h : isolatedText p = true)
    (hsep : SealedS p sep) : ∀ l : List String, (∀ s ∈ l, SealedS p s) →
    SealedS p (stringsJoin l sep) := by
  intro l
  induction l with
  | nil => intro _; exact iso_empty p h
  | cons a rest ih =>
    intro hl
    cases rest with
    | nil => exact hl a (List.mem_cons_self _ _)
    | cons b r =>
      simp only [stringsJoin]
      exact sealedS_append _ _ _ (sealedS_append _ _ _ (hl a (List.mem_cons_self _ _)) hsep)
        (ih (fun s hs => hl s (List.mem_cons_of_mem _ hs)))

theorem sealed_IndexNames (p : String) (h : isolatedText p = true) (v : ViewDef)
    (hc : ∀ c ∈ v.Columns, containsText p c.Name = false ∧ containsText p c.Expr = false) :
    SealedS p v.IndexNames := by
  rw [ViewDef.IndexNames, indexNamesLoop_eq, List.nil_append]
  refine sealed_stringsJoin p _ h (iso_fixed p h _ (by simp [fixedTexts])) _ (fun s hs => ?_)
  obtain ⟨c, hcm, rfl⟩ := List.mem_map.1 hs
  have hcv := (List.mem_filter.1 hcm).1
  exact sealedS_append _ _ _ (sealedS_append _ _ _ (iso_fixed p h _ (by simp [fixedTexts]))
    (sealed_IndexName p h c (hc c hcv).1)) (iso_fixed p h _ (by simp [fixedTexts]))

theorem sealed_cleanupStatement (p : String) (h : isolatedText p = true) (v : ViewDef)
    (hN : containsText p v.Name = false)
    (hc : ∀ c ∈ v.Columns, containsText p c.Name = false ∧ containsText p c.Expr = false) :
    SealedS p (cleanupStatement v) := by
  have e : cleanupPattern = "_col_expr" ++ "_%" := rfl
  simp only [cleanupStatement, ViewDef.Table, e]
  refine sealedS_append _ _ _ ?_ (iso_fixed p h _ (by simp [fixedTexts]))
  refine sealedS_append _ _ _ ?_ (iso_fixed p h _ (by simp [fixedTexts]))
  refine sealedS_append _ _ _ ?_ (sealed_IndexNames p h v hc)
  refine sealedS_append _ _ _ ?_ (iso_fixed p h _ (by simp [fixedTexts]))
  refine sealedS_append _ _ _ ?_ (sealedS_append _ _ _ (iso_fixed p h _ (by simp [fixedTexts]))
    (iso_fixed p h _ (by simp [fixedTexts])))
  refine sealedS_append _ _ _ ?_ (iso_fixed p h _ (by simp [fixedTexts]))
  refine sealedS_append _ _ _ ?_ (iso_fixed p h _ (by simp [fixedTexts]))
  refine sealedS_append _ _ _ ?_ (iso_user p h _ _ hN (by simp [followingTexts]))
  refine sealedS_append _ _ _ ?_ (iso_fixed p h _ (by simp [fixedTexts]))
  refine sealedS_append _ _ _ ?_ (iso_fixed p h _ (by simp [fixedTexts]))
  refine sealedS_append _ _ _ ?_ (iso_fixed p h _ (by simp [fixedTexts]))
  exact sealedS_append _ _ _ (iso_fixed p h _ (by simp [fixedTexts]))
    (iso_fixed p h _ (by simp [fixedTexts]))

theorem sealed_indicesGroup (p : String) (h : isolatedText p = true) (v : ViewDef)
    (hN : containsText p v.Name = false)
    (hc : ∀ c ∈ v.Columns, containsText p c.Name = false ∧ containsText p c.Expr = false) :
    SealedS p (indicesGroup v) := by
  simp only [indicesGroup, indicesTemplate, ViewDef.Table]
  refine sealedS_append _ _ _ (sealedS_append _ _ _ (iso_fixed p h _ (by simp [fixedTexts]))
    (sealedS_append _ _ _ (sealed_indicesRange p h v.Name hN v.Columns hc) ?_))
    (iso_fixed p h _ (by simp [fixedTexts]))
  split
  · exact sealed_cleanupStatement p h v hN hc
  · exact iso_empty p h

/-- A text that occurs in none of the fixed parts, and in none of the values of
the input, does not occur in a script without trigger group. -/
theorem isolated_not_in_script (p : String) (h : isolatedText p = true) (v : ViewDef)
    (ht : v.SkipTriggers = true) (hN : containsText p v.Name = false)
    (hc : ∀ c ∈ v.Columns, containsText p c.Name = false ∧ containsText p c.Expr = false) :
    containsText p (rootTemplate v) = false := by
  rw [containsText_false_iff]
  have hs : SealedS p (rootTemplate v) := by
    simp only [rootTemplate, ht]
    refine sealedS_append _ _ _ (sealedS_append _ _ _ (sealedS_append _ _ _ (sealedS_append _ _ _
      (sealedS_append _ _ _ (sealedS_append _ _ _ (sealedS_append _ _ _
      (iso_fixed p h _ (by simp [fixedTexts]))
      (sealed_tableTemplate p h v hN))
      (iso_fixed p h _ (by simp [fixedTexts])))
      (sealed_viewTemplate p h v hN hc))
      (iso_fixed p h _ (by simp [fixedTexts])))
      (iso_empty p h))
      ?_)
      (iso_fixed p h _ (by simp [fixedTexts]))
    split
    · exact sealed_indicesGroup p h v hN hc
    · exact iso_empty p h
  exact hs.1

/-! ## The values of the input are copied into the script -/

theorem name_in_script (v : ViewDef) : v.Name.data <:+: (rootTemplate v).data := by
  refine ⟨("BEGIN EXCLUSIVE;\n\n" ++ "CREATE TABLE IF NOT EXISTS ").data,
    ("_raw" ++ " (\n  id INTEGER PRIMARY KEY NOT NULL,\n  raw BLOB NOT NULL\n);" ++
      "\n\n--\n-- View\n--\n\n" ++ viewTemplate v ++ "\n\n" ++
      (if !v.SkipTriggers then triggersGroup v else "") ++
      (if !v.SkipIndices then indicesGroup v else "") ++ "COMMIT;").data, ?_⟩
  simp only [rootTemplate, tableTemplate, ViewDef.Table, String.data_append, List.append_assoc]

theorem column_in_viewRange (n : Nat) : ∀ (cols : List ColumnDef) (i : Nat) (c : ColumnDef),
    c ∈ cols → c.Name.data <:+: (viewRange n i cols).data ∧
      c.Expr.data <:+: (viewRange n i cols).data := by
  intro cols
  induction cols with
  | nil => intro i c hc; cases hc
  | cons d rest ih =>
    intro i c hc
    rcases List.mem_cons.1 hc with h | h
    · subst h
      constructor
      · refine ⟨("  " ++ c.Expr ++ " AS ").data,
          ((if last i n then "" else ",") ++ "\n" ++ viewRange n (i + 1) rest).data, ?_⟩
        simp only [viewRange, ColumnDef.SelectExpr, String.data_append, List.append_assoc]
      · refine ⟨"  ".data, (" AS " ++ c.Name ++ (if last i n then "" else ",") ++ "\n" ++
          viewRange n (i + 1) rest).data, ?_⟩
        simp only [viewRange, ColumnDef.SelectExpr, String.data_append, List.append_assoc]
    · have h2 := ih (i + 1) c h
      have hsub : (viewRange n (i + 1) rest).data <:+: (viewRange n i (d :: rest)).data := by
        refine ⟨("  " ++ d.SelectExpr (last i n)).data, [], ?_⟩
        simp only [viewRange, String.data_append, List.append_assoc, List.append_nil]
      exact ⟨h2.1.trans hsub, h2.2.trans hsub⟩

theorem viewRange_in_script (v : ViewDef) :
    (viewRange v.Columns.length 0 v.Columns).data <:+: (rootTemplate v).data := by
  refine ⟨("BEGIN EXCLUSIVE;\n\n" ++ tableTemplate v ++ "\n\n--\n-- View\n--\n\n" ++
      "DROP VIEW IF EXISTS " ++ v.View ++ ";\nCREATE VIEW IF NOT EXISTS " ++ v.View ++
      " AS\nSELECT\n  id,\n  raw" ++ (if v.Columns.isEmpty then "" else ",") ++ "\n").data,
    ("FROM " ++ v.Table ++ ";" ++ "\n\n" ++
      (if !v.SkipTriggers then triggersGroup v else "") ++
      (if !v.SkipIndices then indicesGroup v else "") ++ "COMMIT;").data, ?_⟩
  simp only [rootTemplate, viewTemplate, String.data_append, List.append_assoc]

theorem value_in_script (p : String) (v : ViewDef)
    (h : containsText p v.Name = true ∨
      ∃ c ∈ v.Columns, containsText p c.Name = true ∨ containsText p c.Expr = true) :
    containsText p (rootTemplate v) = true := by
  rw [containsText_iff]
  rcases h with h | ⟨c, hc, h | h⟩
  · exact ((containsText_iff _ _).1 h).trans (name_in_script v)
  · exact (((containsText_iff _ _).1 h).trans
      (column_in_viewRange _ _ 0 c hc).1).trans (viewRange_in_script v)
  · exact (((containsText_iff _ _).1 h).trans
      (column_in_viewRange _ _ 0 c hc).2).trans (viewRange_in_script v)

theorem isolated_in_script_iff (p : String) (h : isolatedText p = true) (v : ViewDef)
    (ht : v.SkipTriggers = true) :
    containsText p (rootTemplate v) = true ↔
      (containsText p v.Name = true ∨
        ∃ c ∈ v.Columns, containsText p c.Name = true ∨ containsText p c.Expr = true) := by
  constructor
  · intro hs
    by_contra hn
    rw [not_or] at hn
    have h1 : containsText p v.Name = false := by
      simpa using hn.1
    have h2 : ∀ c ∈ v.Columns, containsText p c.Name = false ∧ containsText p c.Expr = false := by
      intro c hc
      have := hn.2
      simp only [not_exists, not_and, not_or] at this
      have h3 := this c hc
      exact ⟨by simpa using h3.1, by simpa using h3.2⟩
    rw [isolated_not_in_script p h v ht h1 h2] at hs
    cases hs
  · exact value_in_script p v

/-- Claim C9 fails on the code: the script copies the expressions of the columns,
so with `SkipTriggers = true` and a column whose expression is the SQL string
literal `'CREATE TRIGGER'` the script contains the text `CREATE TRIGGER`. -/
theorem C9_skip_triggers_counterexample :
    quotingView.SkipTriggers = true ∧
    ∃ script, CompileViewDef quotingView = .ok script ∧
      containsText "CREATE TRIGGER" script = true :=
  ⟨rfl, _, CompileViewDef_eq quotingView, by decide!⟩

/-- Claim C9, amended: for every ViewDef with `SkipTriggers = true`, the script
contains the text `CREATE TRIGGER` (and likewise `DROP TRIGGER`) exactly when
the Name of the view or the Name or Expr of a column contains it; so when none
of these values of the input contains `CREATE TRIGGER` or `DROP TRIGGER`, the
script contains neither. -/
theorem C9_skip_triggers (v : ViewDef) (h : v.SkipTriggers = true) :
    ∃ script, CompileViewDef v = .ok script ∧
      (∀ pat ∈ ["CREATE TRIGGER", "DROP TRIGGER"],
        (containsText pat script = true ↔
          (containsText pat v.Name = true ∨
            ∃ c ∈ v.Columns, containsText pat c.Name = true ∨ containsText pat c.Expr = true))) ∧
      ((∀ pat ∈ ["CREATE TRIGGER", "DROP TRIGGER"],
          containsText pat v.Name = false ∧
          ∀ c ∈ v.Columns, containsText pat c.Name = false ∧ containsText pat c.Expr = false) →
        containsText "CREATE TRIGGER" script = false ∧
        containsText "DROP TRIGGER" script = false) := by
  have i1 : isolatedText "CREATE TRIGGER" = true := by decide!
  have i2 : isolatedText "DROP TRIGGER" = true := by decide!
  refine ⟨_, CompileViewDef_eq v, ?_, ?_⟩
  · intro pat hp
    simp only [List.mem_cons, List.mem_singleton, List.not_mem_nil, or_false] at hp
    rcases hp with rfl | rfl
    · exact isolated_in_script_iff _ i1 v h
    · exact isolated_in_script_iff _ i2 v h
  · intro hf
    have f1 := hf "CREATE TRIGGER" (by simp)
    have f2 := hf "DROP TRIGGER" (by simp)
    exact ⟨isolated_not_in_script _ i1 v h f1.1 f1.2,
      isolated_not_in_script _ i2 v h f2.1 f2.2⟩

/-- The amended claim C9 at the view `events` without triggers: neither text occurs. -/
theorem C9_skip_triggers_witness :
    cleanupView.SkipTriggers = true ∧
    ∃ script, CompileViewDef cleanupView = .ok script ∧
      containsText "CREATE TRIGGER" script = false ∧
      containsText "DROP TRIGGER" script = false :=
  ⟨rfl, (C9_skip_triggers cleanupView rfl).elim fun s hs => ⟨s, hs.1, hs.2.2 (by decide)⟩⟩

/-! ## The frame of the script, the raw table and the triggers -/

/-- Claim C13: the script of every ViewDef starts with `BEGIN EXCLUSIVE;` and ends
with `COMMIT;`; its first character is `B` and its last one `;`, so it has no
leading and no trailing newline. -/
theorem C13_transaction_frame (v : ViewDef) :
    ∃ script middle, CompileViewDef v = .ok script ∧
      script = "BEGIN EXCLUSIVE;" ++ middle ++ "COMMIT;" ∧
      script.data.head? = some 'B' ∧ script.data.getLast? = some ';' ∧
      script.data.head? ≠ some '\n' ∧ script.data.getLast? ≠ some '\n' := by
  obtain ⟨m, hm⟩ := rootTemplate_shape v
  have hh : (rootTemplate v).data.head? = some 'B' := by rw [hm]; rfl
  have hl : (rootTemplate v).data.getLast? = some ';' := by
    rw [hm]
    show ('B' :: (m ++ [';'])).getLast? = some ';'
    rw [← List.cons_append, List.getLast?_append]
    rfl
  refine ⟨rootTemplate v, "\n\n" ++ tableTemplate v ++ "\n\n--\n-- View\n--\n\n" ++
    viewTemplate v ++ "\n\n" ++ (if !v.SkipTriggers then triggersGroup v else "") ++
    (if !v.SkipIndices then indicesGroup v else ""), CompileViewDef_eq v, ?_, hh, hl, ?_, ?_⟩
  · have l : ("BEGIN EXCLUSIVE;\n\n" : String) = "BEGIN EXCLUSIVE;" ++ "\n\n" := rfl
    rw [rootTemplate, l]
    simp only [String.append_assoc]
  · rw [hh]; decide
  · rw [hl]; decide

/-- Claim C15: `Table()` is Name followed by `_raw`, `View()` is Name (`events_raw`
and `events` for the view `events`); the raw-table statement of the script is
`CREATE TABLE IF NOT EXISTS <Name>_raw` with the two columns
`id INTEGER PRIMARY KEY NOT NULL` and `raw BLOB NOT NULL`, and it is the same
for every ViewDef of the same Name, whatever its columns and flags. -/
theorem C15_naming_and_raw_table (v : ViewDef) :
    v.Table = v.Name ++ "_raw" ∧ v.View = v.Name ∧
    eventsView.Table = "events_raw" ∧ eventsView.View = "events" ∧
    tableTemplate v =
      "CREATE TABLE IF NOT EXISTS " ++ v.Name ++ "_raw" ++ " (\n" ++
      "  id INTEGER PRIMARY KEY NOT NULL,\n" ++
      "  raw BLOB NOT NULL\n" ++ ");" ∧
    (∀ w : ViewDef, w.Name = v.Name → tableTemplate w = tableTemplate v) ∧
    (∃ rest, CompileViewDef v = .ok ("BEGIN EXCLUSIVE;\n\n" ++ tableTemplate v ++ rest)) := by
  refine ⟨rfl, rfl, by decide, by decide, ?_, ?_, ?_⟩
  · have l : (" (\n  id INTEGER PRIMARY KEY NOT NULL,\n  raw BLOB NOT NULL\n);" : String) =
        " (\n" ++ "  id INTEGER PRIMARY KEY NOT NULL,\n" ++ "  raw BLOB NOT NULL\n" ++ ");" := rfl
    rw [tableTemplate, l]
    simp only [ViewDef.Table, String.append_assoc]
  · intro w hw
    simp only [tableTemplate, ViewDef.Table, hw]
  · refine ⟨"\n\n--\n-- View\n--\n\n" ++ viewTemplate v ++ "\n\n" ++
      (if !v.SkipTriggers then triggersGroup v else "") ++
      (if !v.SkipIndices then indicesGroup v else "") ++ "COMMIT;", ?_⟩
    rw [CompileViewDef_eq, rootTemplate]
    simp only [String.append_assoc]

/-- Claim C14: with `SkipTriggers = false` the trigger group is three triggers,
`<Name>_insert`, `<Name>_update` and `<Name>_delete`, each created
`INSTEAD OF` its operation on the view right after its own
`DROP TRIGGER IF EXISTS`; the bodies insert `raw` into `<Name>_raw`, update
`raw` of the row of `<Name>_raw` with the same `id`, and delete that row; the
text is the same for every ViewDef of the same Name. -/
theorem C14_trigger_group (v : ViewDef) (h : v.SkipTriggers = false) :
    triggersTemplate v =
      "DROP TRIGGER IF EXISTS " ++ v.Name ++ "_insert;\n" ++
      "CREATE TRIGGER IF NOT EXISTS " ++ v.Name ++ "_insert INSTEAD OF INSERT ON " ++
        v.Name ++ "\n" ++
      "BEGIN\n  INSERT INTO " ++ v.Name ++ "_raw(raw) VALUES(NEW.raw);\nEND;\n\n" ++
      "DROP TRIGGER IF EXISTS " ++ v.Name ++ "_update;\n" ++
      "CREATE TRIGGER IF NOT EXISTS " ++ v.Name ++ "_update INSTEAD OF UPDATE ON " ++
        v.Name ++ "\n" ++
      "BEGIN\n  UPDATE " ++ v.Name ++ "_raw SET raw = NEW.raw WHERE id = OLD.id;\nEND;\n\n" ++
      "DROP TRIGGER IF EXISTS " ++ v.Name ++ "_delete;\n" ++
      "CREATE TRIGGER IF NOT EXISTS " ++ v.Name ++ "_delete INSTEAD OF DELETE ON " ++
        v.Name ++ "\n" ++
      "BEGIN\n  DELETE FROM " ++ v.Name ++ "_raw WHERE id = OLD.id;\nEND;" ∧
    (∃ before after, CompileViewDef v = .ok (before ++ triggersTemplate v ++ after)) ∧
    (∀ w : ViewDef, w.Name = v.Name →
      triggersTemplate w = triggersTemplate v ∧ triggersGroup w = triggersGroup v) := by
  refine ⟨?_, ?_, ?_⟩
  · have l1 : ("_raw(raw) VALUES(NEW.raw);\nEND;\n\n" : String) =
        "_raw" ++ "(raw) VALUES(NEW.raw);\nEND;\n\n" := rfl
    have l2 : ("_raw SET raw = NEW.raw WHERE id = OLD.id;\nEND;\n\n" : String) =
        "_raw" ++ " SET raw = NEW.raw WHERE id = OLD.id;\nEND;\n\n" := rfl
    have l3 : ("_raw WHERE id = OLD.id;\nEND;" : String) =
        "_raw" ++ " WHERE id = OLD.id;\nEND;" := rfl
    rw [l1, l2, l3]
    simp only [triggersTemplate, ViewDef.View, ViewDef.Table, String.append_assoc]
  · refine ⟨"BEGIN EXCLUSIVE;\n\n" ++ tableTemplate v ++ "\n\n--\n-- View\n--\n\n" ++
      viewTemplate v ++ "\n\n" ++ ("--\n-- Triggers\n--\n\n" ++
      "-- The trigger helpers enable applications to write in the view and avoid\n" ++
      "-- the writing in the raw table. The restriction is that they can only reference\n" ++
      "-- the 'raw' column.\n\n"),
      "\n\n" ++ (if !v.SkipIndices then indicesGroup v else "") ++ "COMMIT;", ?_⟩
    rw [CompileViewDef_eq, rootTemplate, h]
    simp only [Bool.not_false, if_true, triggersGroup, String.append_assoc]
  · intro w hw
    simp only [triggersGroup, triggersTemplate, ViewDef.View, ViewDef.Table, hw, and_self]

/-- Claim C14 at the view `events`: three `CREATE TRIGGER` and three
`DROP TRIGGER` in the script. -/
theorem C14_trigger_group_witness :
    eventsView.SkipTriggers = false ∧
    (∃ before after, CompileViewDef eventsView =
      .ok (before ++ triggersTemplate eventsView ++ after)) ∧
    (∃ script, CompileViewDef eventsView = .ok script ∧
      countText "CREATE TRIGGER" script = 3 ∧ countText "DROP TRIGGER" script = 3) :=
  ⟨rfl, (C14_trigger_group eventsView rfl).2.1,
    ⟨_, CompileViewDef_eq eventsView, by decide!, by decide!⟩⟩

/-- Claim C12 fails on the code: the cleanup statement does not depend on the
columns; the view without columns with `SkipIndices = false` and
`UnsafeDropOrphanIndices = true` gets the statement `DELETE FROM sqlite_master`
with the empty list `NOT IN ()` before `COMMIT;`. -/
theorem C12_empty_columns_counterexample :
    noColumnView.Columns = [] ∧
    ∃ script, CompileViewDef noColumnView = .ok script ∧
      containsText "DELETE FROM sqlite_master" script = true ∧
      containsText "name NOT IN ());\nPRAGMA writable_schema = 0;\n\nCOMMIT;" script = true :=
  ⟨rfl, _, CompileViewDef_eq noColumnView, by decide!, by decide!⟩

/-- Claim C12, amended: with `Columns = []` the view statement selects `id` and
`raw` only, without comma after `raw` and with `FROM <Name>_raw;` right after
it; the index group holds no `CREATE INDEX` statement; it holds the cleanup
statement, with the empty list `NOT IN ()`, when `UnsafeDropOrphanIndices` is
set, and nothing otherwise; with `SkipIndices` there is no index group. -/
theorem C12_empty_columns (v : ViewDef) (h : v.Columns = []) :
    viewTemplate v =
      "DROP VIEW IF EXISTS " ++ v.Name ++ ";\n" ++
      "CREATE VIEW IF NOT EXISTS " ++ v.Name ++ " AS\n" ++
      "SELECT\n" ++ "  id,\n" ++ "  raw\n" ++ "FROM " ++ v.Name ++ "_raw;" ∧
    v.IndexNames = "" ∧
    indicesTemplate v =
      (if v.UnsafeDropOrphanIndices then
        "-- Delete all indices that were previously defined by us, but are not included\n" ++
        "-- in the lasted definition.\n" ++
        "PRAGMA writable_schema = 1;\n" ++
        "DELETE FROM sqlite_master\n" ++
        "  WHERE type = 'index' AND tbl_name = '" ++ v.Name ++ "_raw' AND\n" ++
        "  (name LIKE '_col_expr_%' AND name NOT IN ());\n" ++
        "PRAGMA writable_schema = 0;\n"
      else "") ∧
    CompileViewDef v = .ok
      ("BEGIN EXCLUSIVE;\n\n" ++ tableTemplate v ++ "\n\n--\n-- View\n--\n\n" ++
        viewTemplate v ++ "\n\n" ++
        (if v.SkipTriggers = false then triggersGroup v else "") ++
        (if v.SkipIndices = false then "--\n-- Indices\n--\n\n" ++ indicesTemplate v ++ "\n"
          else "") ++
        "COMMIT;") := by
  have hn : v.IndexNames = "" := by
    simp only [ViewDef.IndexNames, h, indexNamesLoop, stringsJoin]
  refine ⟨?_, hn, ?_, ?_⟩
  · have l1 : (";\nCREATE VIEW IF NOT EXISTS " : String) = ";\n" ++ "CREATE VIEW IF NOT EXISTS " :=
      rfl
    have l2 : (" AS\nSELECT\n  id,\n  raw" : String) = " AS\n" ++ "SELECT\n" ++ "  id,\n" ++ "  raw" :=
      rfl
    have l3 : ("  raw\n" : String) = "  raw" ++ "" ++ "\n" ++ "" := rfl
    have l4 : ("_raw;" : String) = "_raw" ++ ";" := rfl
    rw [l3, l4]
    simp only [viewTemplate, ViewDef.View, ViewDef.Table, h, viewRange, List.isEmpty_nil, if_true,
      l1, l2, String.append_assoc]
  · have l5 : ("_raw' AND\n" : String) = "_raw" ++ "' AND\n" := rfl
    have l6 : ("  (name LIKE '_col_expr_%' AND name NOT IN ());\n" : String) =
        "  (name LIKE '" ++ "_col_expr_%" ++ "' AND name NOT IN (" ++ "" ++ "));\n" := rfl
    have e : cleanupPattern = "_col_expr_%" := rfl
    rw [l5, l6]
    simp only [indicesTemplate, h, indicesRange, cleanupStatement, hn, e, ViewDef.Table,
      String.append_assoc, String.empty_append]
  · rw [CompileViewDef_eq, rootTemplate, ite_not_eq, ite_not_eq]
    rfl

/-- The amended claim C12 at a view without columns and without cleanup: the
index group is empty. -/
theorem C12_empty_columns_witness :
    plainView.Columns = [] ∧ indicesTemplate plainView = "" ∧
    viewTemplate plainView =
      "DROP VIEW IF EXISTS t;\nCREATE VIEW IF NOT EXISTS t AS\nSELECT\n  id,\n  raw\nFROM t_raw;" :=
  ⟨rfl, (C12_empty_columns plainView rfl).2.2.1, by decide⟩

/-! ## The command -/

/-- Claim C16 fails on the code: `os.Args` always holds the program name, so
`len(os.Args) > 0` holds on every run; run without argument, `main` evaluates
`os.Args[1]` on a slice of length 1, which panics, and standard input is read
only for an empty `os.Args`. With an argument the file of that name is read. -/
theorem C16_no_argument_panics :
    mainSource ["recordlite"] = .indexOutOfRange 1 1 ∧
    mainSource ["recordlite"] ≠ .source .stdin ∧
    (∀ prog : String, mainSource [prog] = .indexOutOfRange 1 1) ∧
    (∀ (prog path : String) (rest : List String),
      mainSource (prog :: path :: rest) = .source (.file path)) ∧
    (∀ args : List String, mainSource args = .source .stdin ↔ args = []) := by
  refine ⟨rfl, by decide, fun _ => rfl, fun _ _ _ => by simp [mainSource], fun args => ?_⟩
  cases args with
  | nil => simp [mainSource]
  | cons a r =>
    cases r with
    | nil => simp [mainSource]
    | cons b r2 => simp [mainSource]

/-! ## The index name and the cleanup -/

/-- Two index names are equal exactly when Name and digest are equal. -/
theorem indexName_eq_iff (c1 c2 : ColumnDef) :
    c1.IndexName = c2.IndexName ↔
      (c1.Name = c2.Name ∧ sha1Sum (bytesOf c1.Expr) = sha1Sum (bytesOf c2.Expr)) := by
  constructor
  · intro h
    have hd := congrArg String.data h
    simp only [ColumnDef.IndexName, String.data_append, List.append_assoc] at hd
    have h1 := List.append_cancel_left (List.append_cancel_left hd)
    have hl := congrArg List.length h1
    simp only [List.length_append, hexBytes_data_length, sha1Sum_length] at hl
    have hlen : c1.Name.data.length = c2.Name.data.length := by omega
    have hn := List.append_inj h1 hlen
    have hname : c1.Name = c2.Name := String.ext hn.1
    exact ⟨hname, (indexName_eq_iff_of_name c1 c2 hname).1 h⟩
  · rintro ⟨hn, hs⟩
    exact (indexName_eq_iff_of_name c1 c2 hn).2 hs

theorem statement_in_indicesRange (table : String) : ∀ (cols : List ColumnDef) (c : ColumnDef),
    c ∈ cols → c.WithIndex = true →
    (c.CreateIndexStatement table).data <:+: (indicesRange table cols).data := by
  intro cols
  induction cols with
  | nil => intro c hc; cases hc
  | cons d rest ih =>
    intro c hc hw
    rcases List.mem_cons.1 hc with h | h
    · subst h
      refine ⟨[], (indicesRange table rest).data, ?_⟩
      simp only [indicesRange, hw, if_true, String.data_append, List.nil_append]
    · refine (ih c h hw).trans ⟨(if d.WithIndex then d.CreateIndexStatement table else "").data,
        [], ?_⟩
      simp only [indicesRange, String.data_append, List.append_nil]

/-- The script of a view with `SkipIndices = false` holds the `CREATE INDEX`
statement of each of its columns with `WithIndex`. -/
theorem statement_in_script (v : ViewDef) (hs : v.SkipIndices = false) (c : ColumnDef)
    (hc : c ∈ v.Columns) (hw : c.WithIndex = true) :
    containsText ("CREATE INDEX IF NOT EXISTS " ++ c.IndexName ++ "\n  ON " ++ v.Name ++
      "_raw(" ++ c.Expr ++ ");") (rootTemplate v) = true := by
  rw [containsText_iff]
  obtain ⟨before, after, hba⟩ := script_holds_indices v hs
  rw [CompileViewDef_eq] at hba
  have hroot : rootTemplate v = before ++ indicesTemplate v ++ after := by
    injection hba
  have h1 : ("CREATE INDEX IF NOT EXISTS " ++ c.IndexName ++ "\n  ON " ++ v.Name ++
      "_raw(" ++ c.Expr ++ ");").data <:+: (c.CreateIndexStatement v.Table).data := by
    refine ⟨[], "\n\n".data, ?_⟩
    have l1 : ("_raw(" : String) = "_raw" ++ "(" := rfl
    have l2 : (");\n\n" : String) = ");" ++ "\n\n" := rfl
    rw [l1]
    simp only [ColumnDef.CreateIndexStatement, ViewDef.Table, l2, String.data_append,
      List.append_assoc, List.nil_append]
  have h2 := statement_in_indicesRange v.Table v.Columns c hc hw
  have h3 : (indicesRange v.Table v.Columns).data <:+: (indicesTemplate v).data := by
    refine ⟨[], (if v.UnsafeDropOrphanIndices then cleanupStatement v else "").data, ?_⟩
    simp only [indicesTemplate, String.data_append, List.nil_append]
  have h4 : (indicesTemplate v).data <:+: (rootTemplate v).data := by
    refine ⟨before.data, after.data, ?_⟩
    rw [hroot]
    simp only [String.data_append]
  exact ((h1.trans h2).trans h3).trans h4

/-- Claim C18: the index name is computed from the column alone. Two ViewDefs
with `SkipIndices = false` that each hold a column with `WithIndex` of the same
Name and the same Expr both emit `CREATE INDEX IF NOT EXISTS` for one and the
same index name, the first on `<Name1>_raw` and the second on `<Name2>_raw`. -/
theorem C18_index_name_ignores_view (v1 v2 : ViewDef) (c1 c2 : ColumnDef)
    (hs1 : v1.SkipIndices = false) (hs2 : v2.SkipIndices = false)
    (hc1 : c1 ∈ v1.Columns) (hc2 : c2 ∈ v2.Columns)
    (hw1 : c1.WithIndex = true) (hw2 : c2.WithIndex = true)
    (hn : c1.Name = c2.Name) (he : c1.Expr = c2.Expr) :
    c1.IndexName = c2.IndexName ∧
    (∃ script1, CompileViewDef v1 = .ok script1 ∧
      containsText ("CREATE INDEX IF NOT EXISTS " ++ c1.IndexName ++ "\n  ON " ++ v1.Name ++
        "_raw(" ++ c1.Expr ++ ");") script1 = true) ∧
    (∃ script2, CompileViewDef v2 = .ok script2 ∧
      containsText ("CREATE INDEX IF NOT EXISTS " ++ c1.IndexName ++ "\n  ON " ++ v2.Name ++
        "_raw(" ++ c1.Expr ++ ");") script2 = true) := by
  have hi : c1.IndexName = c2.IndexName := by
    simp only [ColumnDef.IndexName, hn, he]
  refine ⟨hi, ⟨_, CompileViewDef_eq v1, statement_in_script v1 hs1 c1 hc1 hw1⟩,
    ⟨_, CompileViewDef_eq v2, ?_⟩⟩
  rw [hi, he]
  exact statement_in_script v2 hs2 c2 hc2 hw2

/-- Claim C18 at the views `events` and `audit`, which both index the column `ts`. -/
theorem C18_index_name_ignores_view_witness :
    eventsView.Name ≠ auditView.Name ∧
    tsColumn.IndexName = "_col_expr_ts_bd893ed513bf00ae717d29fd81766926ae268d0c" ∧
    (∃ script1, CompileViewDef eventsView = .ok script1 ∧
      containsText ("CREATE INDEX IF NOT EXISTS " ++ tsColumn.IndexName ++ "\n  ON " ++
        eventsView.Name ++ "_raw(" ++ tsColumn.Expr ++ ");") script1 = true) ∧
    (∃ script2, CompileViewDef auditView = .ok script2 ∧
      containsText ("CREATE INDEX IF NOT EXISTS " ++ tsColumn.IndexName ++ "\n  ON " ++
        auditView.Name ++ "_raw(" ++ tsColumn.Expr ++ ");") script2 = true) :=
  ⟨by decide, by decide!,
    (C18_index_name_ignores_view eventsView auditView tsColumn tsColumn rfl rfl
      (by decide) (by decide) rfl rfl rfl rfl).2⟩

theorem likeMatch_cons (p : Char) (ps : List Char) (c : Char) (s : List Char) (hp : p ≠ '%') :
    likeMatch (p :: ps) (c :: s) = ((p == '_' || p == c) && likeMatch ps s) := by
  rw [likeMatch, if_neg hp]

theorem likeMatch_percent (s : List Char) : likeMatch ['%'] s = true := by
  simp only [likeMatch, if_true, List.any_eq_true]
  exact ⟨[], (List.mem_tails _ _).2 List.nil_suffix, rfl⟩

theorem likeMatch_cleanupPattern (rest : List Char) :
    likeMatch cleanupPattern.data ("_col_expr_".data ++ rest) = true := by
  have e : cleanupPattern.data = ['_', 'c', 'o', 'l', '_', 'e', 'x', 'p', 'r', '_', '%'] := rfl
  have e2 : "_col_expr_".data = ['_', 'c', 'o', 'l', '_', 'e', 'x', 'p', 'r', '_'] := rfl
  rw [e, e2]
  simp only [List.cons_append, List.nil_append]
  rw [likeMatch_cons _ _ _ _ (by decide), likeMatch_cons _ _ _ _ (by decide),
    likeMatch_cons _ _ _ _ (by decide), likeMatch_cons _ _ _ _ (by decide),
    likeMatch_cons _ _ _ _ (by decide), likeMatch_cons _ _ _ _ (by decide),
    likeMatch_cons _ _ _ _ (by decide), likeMatch_cons _ _ _ _ (by decide),
    likeMatch_cons _ _ _ _ (by decide), likeMatch_cons _ _ _ _ (by decide),
    likeMatch_percent]
  decide

theorem indexName_data (c : ColumnDef) :
    c.IndexName.data =
      "_col_expr_".data ++ (c.Name.data ++ ("_".data ++ (hexBytes (sha1Sum (bytesOf c.Expr))).data)) := by
  simp only [ColumnDef.IndexName, indexPrefix, String.data_append, List.append_assoc]
  rfl

theorem rdrop_append_length (a b : List Char) (n : Nat) (h : b.length = n) :
    (a ++ b).rdrop n = a := by
  subst h
  rw [List.rdrop_eq_reverse_drop_reverse, List.reverse_append]
  rw [List.drop_append_of_le_length (by simp)]
  simp

theorem rtake_append_length (a b : List Char) (n : Nat) (h : b.length = n) :
    (a ++ b).rtake n = b := by
  subst h
  rw [List.rtake_eq_reverse_take_reverse, List.reverse_append]
  have e : List.take b.length (b.reverse ++ a.reverse) = b.reverse := by
    rw [← List.length_reverse b]
    exact List.take_left _ _
  rw [e, List.reverse_reverse]

/-- The Name and the digest are read off an index name at fixed places. -/
theorem indexName_decode (c : ColumnDef) :
    (c.IndexName.data.drop 10).rdrop 41 = c.Name.data ∧
    c.IndexName.data.rtake 40 = (hexBytes (sha1Sum (bytesOf c.Expr))).data := by
  have hh : (hexBytes (sha1Sum (bytesOf c.Expr))).data.length = 40 := by
    rw [hexBytes_data_length, sha1Sum_length]
  constructor
  · rw [indexName_data, List.drop_left' (by decide)]
    exact rdrop_append_length _ _ 41 (by rw [List.length_append, hh]; rfl)
  · rw [indexName_data, ← List.append_assoc, ← List.append_assoc]
    exact rtake_append_length _ _ 40 hh

/-- Claim C17: two index names are equal exactly when the Names of the columns
are equal and the SHA-1 digests of their Exprs are equal. The name decodes, for
any Name: after the 10 characters of the prefix, all but the last 41 characters
are the Name, and the last 40 characters are the digest in hexadecimal. -/
theorem C17_index_name_decodes (c1 c2 : ColumnDef) :
    (c1.IndexName = c2.IndexName ↔
      (c1.Name = c2.Name ∧ sha1Sum (bytesOf c1.Expr) = sha1Sum (bytesOf c2.Expr))) ∧
    (c1.IndexName.data.drop 10).rdrop 41 = c1.Name.data ∧
    c1.IndexName.data.rtake 40 = (hexBytes (sha1Sum (bytesOf c1.Expr))).data ∧
    (hexBytes (sha1Sum (bytesOf c1.Expr))).data.length = 40 :=
  ⟨indexName_eq_iff c1 c2, (indexName_decode c1).1, (indexName_decode c1).2,
    by rw [hexBytes_data_length, sha1Sum_length]⟩

/-! ## A text that occurs in no fixed part of a script without cleanup statement -/

theorem sealed_of_head (c : Char) (r s : List Char) (h : c ∉ s) : Sealed (c :: r) s := by
  refine ⟨fun hi => h (hi.subset (List.mem_cons_self _ _)), fun q hq hpre hs => ?_⟩
  cases q with
  | nil => exact hq rfl
  | cons d q2 =>
    obtain ⟨t, ht⟩ := hpre
    have hd : d = c := by
      simp only [List.cons_append, List.cons.injEq] at ht
      exact ht.1
    subst hd
    exact h (hs.subset (List.mem_cons_self _ _))

/-- An underscore followed by forty hexadecimal digits ends every occurrence of
a text that satisfies `hexGuard`. -/
theorem closing_hex (p hex : List Char) (hg : hexGuard p = true) (hl : hex.length = 40)
    (hh : ∀ c ∈ hex, c ∈ hexChars) : Closing p ('_' :: hex) := by
  simp only [hexGuard, Bool.and_eq_true, decide_eq_true_eq, List.all_eq_true,
    List.mem_tails] at hg
  obtain ⟨⟨hlen, hhead⟩, htails⟩ := hg
  refine ⟨fun t ht hs hpre => ?_, fun hi => ?_, ?_⟩
  · have h1 := htails t hs
    cases t with
    | nil => exact ht rfl
    | cons c rest =>
      rcases List.prefix_cons_iff.1 hpre with h2 | ⟨t2, h2, h3⟩
      · cases h2
      · simp only [List.cons.injEq] at h2
        obtain ⟨hc, hr⟩ := h2
        subst hc hr
        simp only [bne_self_eq_false, Bool.false_or, List.any_eq_true, Bool.not_eq_true',
          ] at h1
        obtain ⟨x, hx, hx2⟩ := h1
        have := hh x (h3.subset hx)
        simp [this] at hx2
  · have := hi.length_le
    simp only [List.length_cons, hl] at this
    omega
  · cases p with
    | nil => simp at hhead
    | cons c r =>
      simp only [Bool.not_eq_true', List.contains_eq_any_beq, List.any_eq_false, beq_iff_eq,
        List.mem_cons] at hhead
      refine sealed_of_head c r _ (fun hm => ?_)
      rcases List.mem_cons.1 hm with h1 | h1
      · exact hhead '_' (Or.inl rfl) h1
      · exact hhead c (Or.inr (hh c h1)) rfl

theorem apart_ne (p : String) (h : apartText p = true) : p.data ≠ [] := by
  simp only [apartText, Bool.and_eq_true, hexGuard] at h
  intro hp
  rw [hp] at h
  simp at h

theorem apart_fixed (p : String) (h : apartText p = true) (l : String) (hl : l ∈ apartTexts) :
    SealedS p l := by
  simp only [apartText, Bool.and_eq_true, List.all_eq_true] at h
  exact sealedB_sound _ _ (h.1.1 l hl)

theorem apart_empty (p : String) (h : apartText p = true) : SealedS p "" :=
  sealed_nil _ (apart_ne p h)

theorem apart_user (p : String) (h : apartText p = true) (u l : String)
    (hu : containsText p u = false) (hl : l ∈ apartFollowing) : SealedS p (u ++ l) := by
  simp only [apartText, Bool.and_eq_true, List.all_eq_true] at h
  unfold SealedS
  rw [String.data_append]
  exact sealed_user _ _ _ ((containsText_false_iff p u).1 hu) (closingB_sound _ _ (h.1.2 l hl))

/-- The Name of a column followed by the underscore and the digest of an index
name. -/
theorem apart_user_hex (p : String) (h : apartText p = true) (u : String) (msg : List Nat)
    (hu : containsText p u = false) : SealedS p (u ++ ("_" ++ hexBytes (sha1Sum msg))) := by
  simp only [apartText, Bool.and_eq_true] at h
  unfold SealedS
  rw [String.data_append, String.data_append]
  show Sealed p.data (u.data ++ ('_' :: (hexBytes (sha1Sum msg)).data))
  exact sealed_user _ _ _ ((containsText_false_iff p u).1 hu)
    (closing_hex _ _ h.2 (by rw [hexBytes_data_length, sha1Sum_length])
      (fun c hc => hexBytes_chars _ c hc))

theorem apart_tableTemplate (p : String) (h : apartText p = true) (v : ViewDef)
    (hN : containsText p v.Name = false) : SealedS p (tableTemplate v) := by
  simp only [tableTemplate, ViewDef.Table]
  exact sealedS_append _ _ _ (sealedS_append _ _ _
    (apart_fixed p h _ (by simp [apartTexts]))
    (apart_user p h _ _ hN (by simp [apartFollowing])))
    (apart_fixed p h _ (by simp [apartTexts]))

theorem apart_SelectExpr (p : String) (h : apartText p = true) (c : ColumnDef)
    (hn : containsText p c.Name = false) (he : containsText p c.Expr = false) (b : Bool) :
    SealedS p (c.SelectExpr b) := by
  cases b
  · have e : c.SelectExpr false = (c.Expr ++ " AS ") ++ ((c.Name ++ ",") ++ "\n") := by
      simp only [ColumnDef.SelectExpr, String.append_assoc]
      rfl
    rw [e]
    exact sealedS_append _ _ _ (apart_user p h _ _ he (by simp [apartFollowing]))
      (sealedS_append _ _ _ (apart_user p h _ _ hn (by simp [apartFollowing]))
        (apart_fixed p h _ (by simp [apartTexts])))
  · have e : c.SelectExpr true = (c.Expr ++ " AS ") ++ (c.Name ++ "\n") := by
      simp only [ColumnDef.SelectExpr, String.append_assoc]
      rfl
    rw [e]
    exact sealedS_append _ _ _ (apart_user p h _ _ he (by simp [apartFollowing]))
      (apart_user p h _ _ hn (by simp [apartFollowing]))

theorem apart_viewRange (p : String) (h : apartText p = true) (n : Nat) :
    ∀ (cols : List ColumnDef) (i : Nat),
    (∀ c ∈ cols, containsText p c.Name = false ∧ containsText p c.Expr = false) →
    SealedS p (viewRange n i cols) := by
  intro cols
  induction cols with
  | nil => intro i _; exact apart_empty p h
  | cons c rest ih =>
    intro i hc
    have h1 := hc c (List.mem_cons_self _ _)
    simp only [viewRange]
    exact sealedS_append _ _ _ (sealedS_append _ _ _ (apart_fixed p h _ (by simp [apartTexts]))
      (apart_SelectExpr p h c h1.1 h1.2 _))
      (ih (i + 1) (fun d hd => hc d (List.mem_cons_of_mem _ hd)))

theorem apart_viewTemplate (p : String) (h : apartText p = true) (v : ViewDef)
    (hN : containsText p v.Name = false)
    (hc : ∀ c ∈ v.Columns, containsText p c.Name = false ∧ containsText p c.Expr = false) :
    SealedS p (viewTemplate v) := by
  have e : viewTemplate v =
      "DROP VIEW IF EXISTS " ++ (v.Name ++ ";\nCREATE VIEW IF NOT EXISTS ") ++
      (v.Name ++ " AS\nSELECT\n  id,\n  raw") ++ (if v.Columns.isEmpty then "" else ",") ++
      "\n" ++ viewRange v.Columns.length 0 v.Columns ++ "FROM " ++ (v.Name ++ "_raw") ++ ";" := by
    simp only [viewTemplate, ViewDef.View, ViewDef.Table, String.append_assoc]
  rw [e]
  have hi : SealedS p (if v.Columns.isEmpty then "" else ",") := by
    split
    · exact apart_empty p h
    · exact apart_fixed p h _ (by simp [apartTexts])
  refine sealedS_append _ _ _ ?_ (apart_fixed p h _ (by simp [apartTexts]))
  refine sealedS_append _ _ _ ?_ (apart_user p h _ _ hN (by simp [apartFollowing]))
  refine sealedS_append _ _ _ ?_ (apart_fixed p h _ (by simp [apartTexts]))
  refine sealedS_append _ _ _ ?_ (apart_viewRange p h _ _ _ hc)
  refine sealedS_append _ _ _ ?_ (apart_fixed p h _ (by simp [apartTexts]))
  refine sealedS_append _ _ _ ?_ hi
  refine sealedS_append _ _ _ ?_ (apart_user p h _ _ hN (by simp [apartFollowing]))
  exact sealedS_append _ _ _ (apart_fixed p h _ (by simp [apartTexts]))
    (apart_user p h _ _ hN (by simp [apartFollowing]))

theorem apart_triggersGroup (p : String) (h : apartText p = true) (v : ViewDef)
    (hN : containsText p v.Name = false) : SealedS p (triggersGroup v) := by
  have e : triggersGroup v =
      "--\n-- Triggers\n--\n\n" ++
      "-- The trigger helpers enable applications to write in the view and avoid\n" ++
      "-- the writing in the raw table. The restriction is that they can only reference\n" ++
      "-- the 'raw' column.\n\n" ++
      "DROP TRIGGER IF EXISTS " ++ (v.Name ++ "_insert;\n") ++
      "CREATE TRIGGER IF NOT EXISTS " ++ (v.Name ++ "_insert INSTEAD OF INSERT ON ") ++
      (v.Name ++ "\n") ++
      "BEGIN\n  INSERT INTO " ++ (v.Name ++ "_raw") ++ "(raw) VALUES(NEW.raw);\nEND;\n\n" ++
      "DROP TRIGGER IF EXISTS " ++ (v.Name ++ "_update;\n") ++
      "CREATE TRIGGER IF NOT EXISTS " ++ (v.Name ++ "_update INSTEAD OF UPDATE ON ") ++
      (v.Name ++ "\n") ++
      "BEGIN\n  UPDATE " ++ (v.Name ++ "_raw") ++
      " SET raw = NEW.raw WHERE id = OLD.id;\nEND;\n\n" ++
      "DROP TRIGGER IF EXISTS " ++ (v.Name ++ "_delete;\n") ++
      "CREATE TRIGGER IF NOT EXISTS " ++ (v.Name ++ "_delete INSTEAD OF DELETE ON ") ++
      (v.Name ++ "\n") ++
      "BEGIN\n  DELETE FROM " ++ (v.Name ++ "_raw") ++ " WHERE id = OLD.id;\nEND;" ++
      "\n\n" := by
    simp only [triggersGroup, triggersTemplate, ViewDef.View, ViewDef.Table, String.append_assoc]
  rw [e]
  refine sealedS_append _ _ _ ?_ (apart_fixed p h _ (by simp [apartTexts]))
  refine sealedS_append _ _ _ ?_ (apart_fixed p h _ (by simp [apartTexts]))
  refine sealedS_append _ _ _ ?_ (apart_user p h _ _ hN (by simp [apartFollowing]))
  refine sealedS_append _ _ _ ?_ (apart_fixed p h _ (by simp [apartTexts]))
  refine sealedS_append _ _ _ ?_ (apart_user p h _ _ hN (by simp [apartFollowing]))
  refine sealedS_append _ _ _ ?_ (apart_user p h _ _ hN (by simp [apartFollowing]))
  refine sealedS_append _ _ _ ?_ (apart_fixed p h _ (by simp [apartTexts]))
  refine sealedS_append _ _ _ ?_ (apart_user p h _ _ hN (by simp [apartFollowing]))
  refine sealedS_append _ _ _ ?_ (apart_fixed p h _ (by simp [apartTexts]))
  refine sealedS_append _ _ _ ?_ (apart_fixed p h _ (by simp [apartTexts]))
  refine sealedS_append _ _ _ ?_ (apart_user p h _ _ hN (by simp [apartFollowing]))
  refine sealedS_append _ _ _ ?_ (apart_fixed p h _ (by simp [apartTexts]))
  refine sealedS_append _ _ _ ?_ (apart_user p h _ _ hN (by simp [apartFollowing]))
  refine sealedS_append _ _ _ ?_ (apart_user p h _ _ hN (by simp [apartFollowing]))
  refine sealedS_append _ _ _ ?_ (apart_fixed p h _ (by simp [apartTexts]))
  refine sealedS_append _ _ _ ?_ (apart_user p h _ _ hN (by simp [apartFollowing]))
  refine sealedS_append _ _ _ ?_ (apart_fixed p h _ (by simp [apartTexts]))
  refine sealedS_append _ _ _ ?_ (apart_fixed p h _ (by simp [apartTexts]))
  refine sealedS_append _ _ _ ?_ (apart_user p h _ _ hN (by simp [apartFollowing]))
  refine sealedS_append _ _ _ ?_ (apart_fixed p h _ (by simp [apartTexts]))
  refine sealedS_append _ _ _ ?_ (apart_user p h _ _ hN (by simp [apartFollowing]))
  refine sealedS_append _ _ _ ?_ (apart_user p h _ _ hN (by simp [apartFollowing]))
  refine sealedS_append _ _ _ ?_ (apart_fixed p h _ (by simp [apartTexts]))
  refine sealedS_append _ _ _ ?_ (apart_user p h _ _ hN (by simp [apartFollowing]))
  refine sealedS_append _ _ _ ?_ (apart_fixed p h _ (by simp [apartTexts]))
  refine sealedS_append _ _ _ ?_ (apart_fixed p h _ (by simp [apartTexts]))
  refine sealedS_append _ _ _ ?_ (apart_fixed p h _ (by simp [apartTexts]))
  exact sealedS_append _ _ _ (apart_fixed p h _ (by simp [apartTexts]))
    (apart_fixed p h _ (by simp [apartTexts]))

theorem apart_IndexName (p : String) (h : apartText p = true) (c : ColumnDef)
    (hn : containsText p c.Name = false) : SealedS p c.IndexName := by
  have e : c.IndexName =
      "_col_expr" ++ "_" ++ (c.Name ++ ("_" ++ hexBytes (sha1Sum (bytesOf c.Expr)))) := by
    simp only [ColumnDef.IndexName, indexPrefix, String.append_assoc]
  rw [e]
  exact sealedS_append _ _ _ (sealedS_append _ _ _
    (apart_fixed p h _ (by simp [apartTexts]))
    (apart_fixed p h _ (by simp [apartTexts])))
    (apart_user_hex p h _ _ hn)

theorem apart_CreateIndexStatement (p : String) (h : apartText p = true) (c : ColumnDef)
    (hn : containsText p c.Name = false) (he : containsText p c.Expr = false)
    (name : String) (hN : containsText p name = false) :
    SealedS p (c.CreateIndexStatement (name ++ "_raw")) := by
  have e : c.CreateIndexStatement (name ++ "_raw") =
      "CREATE INDEX IF NOT EXISTS " ++ c.IndexName ++ "\n  ON " ++ (name ++ "_raw") ++ "(" ++
        (c.Expr ++ ");\n\n") := by
    simp only [ColumnDef.CreateIndexStatement, String.append_assoc]
  rw [e]
  refine sealedS_append _ _ _ ?_ (apart_user p h _ _ he (by simp [apartFollowing]))
  refine sealedS_append _ _ _ ?_ (apart_fixed p h _ (by simp [apartTexts]))
  refine sealedS_append _ _ _ ?_ (apart_user p h _ _ hN (by simp [apartFollowing]))
  refine sealedS_append _ _ _ ?_ (apart_fixed p h _ (by simp [apartTexts]))
  exact sealedS_append _ _ _ (apart_fixed p h _ (by simp [apartTexts]))
    (apart_IndexName p h c hn)

theorem apart_indicesRange (p : String) (h : apartText p = true) (name : String)
    (hN : containsText p name = false) : ∀ cols : List ColumnDef,
    (∀ c ∈ cols, containsText p c.Name = false ∧ containsText p c.Expr = false) →
    SealedS p (indicesRange (name ++ "_raw") cols) := by
  intro cols
  induction cols with
  | nil => intro _; exact apart_empty p h
  | cons c rest ih =>
    intro hc
    have h1 := hc c (List.mem_cons_self _ _)
    simp only [indicesRange]
    refine sealedS_append _ _ _ ?_ (ih (fun d hd => hc d (List.mem_cons_of_mem _ hd)))
    split
    · exact apart_CreateIndexStatement p h c h1.1 h1.2 name hN
    · exact apart_empty p h

/-- A text that satisfies `apartText` and occurs in no value of the input does
not occur in a script without cleanup statement. -/
theorem apart_not_in_script (p : String) (h : apartText p = true) (v : ViewDef)
    (hu : v.SkipIndices = true ∨ v.UnsafeDropOrphanIndices = false)
    (hN : containsText p v.Name = false)
    (hc : ∀ c ∈ v.Columns, containsText p c.Name = false ∧ containsText p c.Expr = false) :
    ¬ p.data <:+: (rootTemplate v).data := by
  have hs : SealedS p (rootTemplate v) := by
    simp only [rootTemplate]
    refine sealedS_append _ _ _ ?_ (apart_fixed p h _ (by simp [apartTexts]))
    refine sealedS_append _ _ _ (sealedS_append _ _ _ ?_ ?_) ?_
    · refine sealedS_append _ _ _ ?_ (apart_fixed p h _ (by simp [apartTexts]))
      refine sealedS_append _ _ _ ?_ (apart_viewTemplate p h v hN hc)
      refine sealedS_append _ _ _ ?_ (apart_fixed p h _ (by simp [apartTexts]))
      exact sealedS_append _ _ _ (apart_fixed p h _ (by simp [apartTexts]))
        (apart_tableTemplate p h v hN)
    · split
      · exact apart_triggersGroup p h v hN
      · exact apart_empty p h
    · split
      · rename_i hsi
        have hud : v.UnsafeDropOrphanIndices = false := by
          rcases hu with h1 | h1
          · rw [h1] at hsi
            simp at hsi
          · exact h1
        simp only [indicesGroup, indicesTemplate, ViewDef.Table, hud]
        refine sealedS_append _ _ _ ?_ (apart_fixed p h _ (by simp [apartTexts]))
        refine sealedS_append _ _ _ (apart_fixed p h _ (by simp [apartTexts])) ?_
        exact sealedS_append _ _ _ (apart_indicesRange p h v.Name hN v.Columns hc)
          (apart_empty p h)
      · exact apart_empty p h
  exact hs.1

theorem cleanup_in_script (v : ViewDef) (h1 : v.SkipIndices = false)
    (h2 : v.UnsafeDropOrphanIndices = true) :
    "DELETE FROM sqlite_master".data <:+: (rootTemplate v).data := by
  obtain ⟨before, after, hba⟩ := script_holds_indices v h1
  rw [CompileViewDef_eq] at hba
  have hroot : rootTemplate v = before ++ indicesTemplate v ++ after := by
    injection hba
  have l : ("DELETE FROM sqlite_master\n" : String) = "DELETE FROM sqlite_master" ++ "\n" := rfl
  rw [hroot]
  refine ⟨(before ++ indicesRange v.Table v.Columns ++
      "-- Delete all indices that were previously defined by us, but are not included\n" ++
      "-- in the lasted definition.\n" ++
      "PRAGMA writable_schema = 1;\n").data,
    ("\n" ++
      "  WHERE type = 'index' AND tbl_name = '" ++ v.Table ++ "' AND\n" ++
      "  (name LIKE '" ++ cleanupPattern ++ "' AND name NOT IN (" ++ v.IndexNames ++ "));\n" ++
      "PRAGMA writable_schema = 0;\n" ++ after).data, ?_⟩
  simp only [indicesTemplate, h2, if_true, cleanupStatement, l, String.data_append,
    List.append_assoc]

/-- Claim C11: for every ViewDef whose Name and whose columns' Names and Exprs do
not contain the text `sqlite_master`, the script contains
`DELETE FROM sqlite_master` exactly when `SkipIndices = false` and
`UnsafeDropOrphanIndices = true`; with `UnsafeDropOrphanIndices = false` the
script does not contain it, whatever the `WithIndex` flags are. -/
theorem C11_catalog_deletion (v : ViewDef)
    (hN : containsText "sqlite_master" v.Name = false)
    (hc : ∀ c ∈ v.Columns, containsText "sqlite_master" c.Name = false ∧
      containsText "sqlite_master" c.Expr = false) :
    ∃ script, CompileViewDef v = .ok script ∧
      (containsText "DELETE FROM sqlite_master" script = true ↔
        (v.SkipIndices = false ∧ v.UnsafeDropOrphanIndices = true)) ∧
      (v.UnsafeDropOrphanIndices = false →
        containsText "DELETE FROM sqlite_master" script = false) := by
  have ha : apartText "sqlite_master" = true := by decide!
  have hsub : "sqlite_master".data <:+: "DELETE FROM sqlite_master".data :=
    ⟨"DELETE FROM ".data, [], by decide⟩
  have hno : (v.SkipIndices = true ∨ v.UnsafeDropOrphanIndices = false) →
      containsText "DELETE FROM sqlite_master" (rootTemplate v) = false := by
    intro hu
    rw [containsText_false_iff]
    exact fun hi => apart_not_in_script _ ha v hu hN hc (hsub.trans hi)
  refine ⟨_, CompileViewDef_eq v, ⟨fun hs => ?_, fun hf => ?_⟩, fun hu => hno (Or.inr hu)⟩
  · by_contra hn
    have hu : v.SkipIndices = true ∨ v.UnsafeDropOrphanIndices = false := by
      cases h1 : v.SkipIndices <;> cases h2 : v.UnsafeDropOrphanIndices <;> simp_all
    rw [hno hu] at hs
    cases hs
  · exact (containsText_iff _ _).2 (cleanup_in_script v hf.1 hf.2)

/-- Claim C11 at a view named `sqlite` with a column named `master`, triggers and
an index, and no cleanup: the script does not contain the statement. -/
theorem C11_catalog_deletion_witness :
    containsText "sqlite_master" sqliteView.Name = false ∧
    (∀ c ∈ sqliteView.Columns, containsText "sqlite_master" c.Name = false ∧
      containsText "sqlite_master" c.Expr = false) ∧
    ∃ script, CompileViewDef sqliteView = .ok script ∧
      (containsText "DELETE FROM sqlite_master" script = true ↔
        (sqliteView.SkipIndices = false ∧ sqliteView.UnsafeDropOrphanIndices = true)) ∧
      (sqliteView.UnsafeDropOrphanIndices = false →
        containsText "DELETE FROM sqlite_master" script = false) :=
  ⟨by decide, by decide, C11_catalog_deletion sqliteView (by decide) (by decide)⟩

/-! ## The rows that the cleanup statement deletes -/

theorem sqlLiterals_skip : ∀ (s rest : List Char), quoteChar ∉ s →
    sqlLiterals (s ++ rest) none = sqlLiterals rest none := by
  intro s
  induction s with
  | nil => intro rest _; rfl
  | cons c s2 ih =>
    intro rest h
    have hc : c ≠ quoteChar := fun e => h (e ▸ List.mem_cons_self _ _)
    have hs : quoteChar ∉ s2 := fun e => h (List.mem_cons_of_mem _ e)
    rw [List.cons_append, sqlLiterals, if_neg hc, ih rest hs]

theorem sqlLiterals_inside : ∀ (n acc rest : List Char), quoteChar ∉ n →
    sqlLiterals (n ++ quoteChar :: rest) (some acc) =
      (acc.reverse ++ n) :: sqlLiterals rest none := by
  intro n
  induction n with
  | nil =>
    intro acc rest _
    rw [List.nil_append, sqlLiterals, if_pos rfl, List.append_nil]
  | cons c n2 ih =>
    intro acc rest h
    have hc : c ≠ quoteChar := fun e => h (e ▸ List.mem_cons_self _ _)
    have hs : quoteChar ∉ n2 := fun e => h (List.mem_cons_of_mem _ e)
    rw [List.cons_append, sqlLiterals, if_neg hc, ih (c :: acc) rest hs, List.reverse_cons,
      List.append_assoc, List.singleton_append]

/-- One literal without quote inside, and what follows it. -/
theorem sqlLiterals_quoted (n : String) (rest : List Char) (h : quoteChar ∉ n.data) :
    sqlLiterals (("'" ++ n ++ "'").data ++ rest) none = n.data :: sqlLiterals rest none := by
  have e : ("'" ++ n ++ "'").data ++ rest = quoteChar :: (n.data ++ quoteChar :: rest) := by
    simp only [String.data_append, List.append_assoc]
    rfl
  rw [e, sqlLiterals, if_pos rfl, sqlLiterals_inside _ _ _ h]
  rfl

/-- The literals of the text that `IndexNames` joins are the names it quoted. -/
theorem sqlLiterals_join : ∀ ns : List String, (∀ n ∈ ns, quoteChar ∉ n.data) →
    sqlLiterals (stringsJoin (ns.map fun n => "'" ++ n ++ "'") ",\n    ").data none =
      ns.map String.data := by
  intro ns
  induction ns with
  | nil => intro _; rfl
  | cons a rest ih =>
    intro h
    have ha := h a (List.mem_cons_self _ _)
    cases rest with
    | nil =>
      have := sqlLiterals_quoted a [] ha
      rw [List.append_nil] at this
      simp only [List.map_cons, List.map_nil, stringsJoin]
      rw [this]
      rfl
    | cons b r =>
      have ih2 := ih (fun n hn => h n (List.mem_cons_of_mem _ hn))
      simp only [List.map_cons, stringsJoin] at ih2 ⊢
      rw [String.data_append, String.data_append, List.append_assoc,
        sqlLiterals_quoted a _ ha, sqlLiterals_skip _ _ (by decide), ih2]

theorem indexName_no_quote (c : ColumnDef) (h : quoteChar ∉ c.Name.data) :
    quoteChar ∉ c.IndexName.data := by
  rw [indexName_data]
  intro hm
  rcases List.mem_append.1 hm with h1 | h1
  · revert h1; decide
  · rcases List.mem_append.1 h1 with h2 | h2
    · exact h h2
    · rcases List.mem_append.1 h2 with h3 | h3
      · revert h3; decide
      · have := hexBytes_chars _ _ h3
        revert this; decide

/-- The list after `NOT IN`, read by SQL: the index names of the columns with
`WithIndex`, in order. -/
theorem sqlLiterals_IndexNames (v : ViewDef)
    (hq : ∀ d ∈ v.Columns, d.WithIndex = true → quoteChar ∉ d.Name.data) :
    sqlLiterals v.IndexNames.data none =
      ((v.Columns.filter fun d => d.WithIndex).map ColumnDef.IndexName).map String.data := by
  rw [ViewDef.IndexNames, indexNamesLoop_eq, List.nil_append]
  have e : ((v.Columns.filter fun d => d.WithIndex).map fun c => "'" ++ c.IndexName ++ "'") =
      ((v.Columns.filter fun d => d.WithIndex).map ColumnDef.IndexName).map
        fun n => "'" ++ n ++ "'" := by
    rw [List.map_map]
    rfl
  rw [e]
  refine sqlLiterals_join _ (fun n hn => ?_)
  obtain ⟨d, hd, rfl⟩ := List.mem_map.1 hn
  obtain ⟨hd1, hd2⟩ := List.mem_filter.1 hd
  exact indexName_no_quote d (hq d hd1 hd2)

/-- The row of an index of the raw table with the index name of `c` is deleted
exactly when no column with `WithIndex` of the view has that index name. -/
theorem cleanupDeletes_iff (v : ViewDef) (c : ColumnDef)
    (hs : v.SkipIndices = false) (hu : v.UnsafeDropOrphanIndices = true)
    (hq : ∀ d ∈ v.Columns, d.WithIndex = true → quoteChar ∉ d.Name.data) :
    cleanupDeletes v ⟨"index", c.IndexName, v.Name ++ "_raw"⟩ = true ↔
      ∀ d ∈ v.Columns, d.WithIndex = true → d.IndexName ≠ c.IndexName := by
  have hl : likeMatch cleanupPattern.data c.IndexName.data = true := by
    rw [indexName_data]
    exact likeMatch_cleanupPattern _
  simp only [cleanupDeletes, cleanupWhere, hs, hu, ViewDef.Table, hl, sqlLiterals_IndexNames v hq,
    Bool.not_false, Bool.true_and, beq_self_eq_true, Bool.and_eq_true, Bool.not_eq_true',
    List.contains_eq_any_beq, List.any_eq_false, List.mem_map, List.mem_filter, and_self,
    true_and, beq_iff_eq]
  constructor
  · intro h d hd hw he
    exact h d.IndexName.data ⟨d.IndexName, ⟨d, ⟨hd, hw⟩, rfl⟩, rfl⟩ (by rw [he])
  · rintro h x ⟨n, ⟨d, ⟨hd, hw⟩, rfl⟩, rfl⟩ he
    exact h d hd hw (String.ext he.symm)

/-- Claim C19 fails on the code for an expression that was replaced by one with
the same SHA-1 digest: there are a view with `SkipIndices = false` and
`UnsafeDropOrphanIndices = true` and an earlier column whose Expr no column of
the view has any more, such that the row of the earlier index is not deleted;
its name is still in the list after `NOT IN`. -/
theorem C19_removed_expr_counterexample :
    ¬ ∀ (v : ViewDef) (c : ColumnDef), v.SkipIndices = false →
      v.UnsafeDropOrphanIndices = true →
      (∀ d ∈ v.Columns, quoteChar ∉ d.Name.data) →
      (∀ d ∈ v.Columns, d.Name ≠ c.Name ∨ d.Expr ≠ c.Expr) →
      cleanupDeletes v ⟨"index", c.IndexName, v.Name ++ "_raw"⟩ = true := by
  intro h
  obtain ⟨x, y, hne, hxy⟩ := sha1_collision_exists
  have hdel := h ⟨"t", [⟨"n", y, true⟩], true, false, true⟩ ⟨"n", x, true⟩ rfl rfl
    (by
      intro d hd
      rw [List.mem_singleton] at hd
      subst hd
      show quoteChar ∉ "n".data
      decide)
    (by
      intro d hd
      rw [List.mem_singleton] at hd
      subst hd
      exact Or.inr (fun e => hne e.symm))
  have hiff := (cleanupDeletes_iff ⟨"t", [⟨"n", y, true⟩], true, false, true⟩ ⟨"n", x, true⟩
    rfl rfl (by
      intro d hd _
      rw [List.mem_singleton] at hd
      subst hd
      show quoteChar ∉ "n".data
      decide)).1 hdel
  exact hiff ⟨"n", y, true⟩ (List.mem_singleton.2 rfl) rfl
    ((indexName_eq_iff ⟨"n", y, true⟩ ⟨"n", x, true⟩).2 ⟨rfl, hxy.symm⟩)

/-- Claim C19, amended: every index name starts with `_col_expr_` and matches the
pattern `_col_expr_%` of the cleanup statement. For every ViewDef with
`SkipIndices = false` and `UnsafeDropOrphanIndices = true` whose indexed
columns have no single quote in their Name, the script holds the cleanup
statement, whose `WHERE` clause is filled with `<Name>_raw`, the pattern and
`IndexNames`, the list being read by SQL as the index names of the columns with
`WithIndex`; the statement deletes the row of an index of `<Name>_raw` named as
the index of a column `c` exactly when no column with `WithIndex` of the
ViewDef has both the Name of `c` and an Expr with the SHA-1 digest of that of
`c`; and it deletes rows of indices of `<Name>_raw` only. -/
theorem C19_cleanup_recognises_own_names (c : ColumnDef) :
    "_col_expr_".data <+: c.IndexName.data ∧
    likeMatch cleanupPattern.data c.IndexName.data = true ∧
    ∀ v : ViewDef, v.SkipIndices = false → v.UnsafeDropOrphanIndices = true →
      (∀ d ∈ v.Columns, d.WithIndex = true → quoteChar ∉ d.Name.data) →
      (∃ before after, CompileViewDef v = .ok (before ++ cleanupStatement v ++ after)) ∧
      cleanupStatement v =
        "-- Delete all indices that were previously defined by us, but are not included\n" ++
        "-- in the lasted definition.\n" ++
        "PRAGMA writable_schema = 1;\n" ++
        "DELETE FROM sqlite_master\n" ++
        "  WHERE type = 'index' AND tbl_name = '" ++ v.Table ++ "' AND\n" ++
        "  (name LIKE '" ++ cleanupPattern ++ "' AND name NOT IN (" ++ v.IndexNames ++
        "));\n" ++
        "PRAGMA writable_schema = 0;\n" ∧
      sqlLiterals v.IndexNames.data none =
        ((v.Columns.filter fun d => d.WithIndex).map ColumnDef.IndexName).map String.data ∧
      (cleanupDeletes v ⟨"index", c.IndexName, v.Name ++ "_raw"⟩ = true ↔
        ∀ d ∈ v.Columns, d.WithIndex = true →
          d.Name ≠ c.Name ∨ sha1Sum (bytesOf d.Expr) ≠ sha1Sum (bytesOf c.Expr)) ∧
      (∀ row : CatalogRow, cleanupDeletes v row = true →
        row.type = "index" ∧ row.tbl_name = v.Name ++ "_raw") := by
  refine ⟨?_, ?_, fun v hs hu hq => ⟨?_, rfl, sqlLiterals_IndexNames v hq, ?_, ?_⟩⟩
  · rw [indexName_data]
    exact List.prefix_append _ _
  · rw [indexName_data]
    exact likeMatch_cleanupPattern _
  · obtain ⟨before, after, hba⟩ := script_holds_indices v hs
    refine ⟨before ++ indicesRange v.Table v.Columns, after, ?_⟩
    rw [hba, indicesTemplate, hu]
    simp only [if_true, String.append_assoc]
  · rw [cleanupDeletes_iff v c hs hu hq]
    constructor
    · intro h d hd hw
      by_contra hn
      rw [not_or, not_not, not_not] at hn
      exact h d hd hw ((indexName_eq_iff d c).2 hn)
    · intro h d hd hw he
      have := (indexName_eq_iff d c).1 he
      rcases h d hd hw with h1 | h1
      · exact h1 this.1
      · exact h1 this.2
  · intro row hr
    simp only [cleanupDeletes, cleanupWhere, Bool.and_eq_true, beq_iff_eq, ViewDef.Table] at hr
    exact ⟨hr.2.1.1, hr.2.1.2⟩

/-- The amended claim C19 at the view `events` after its column `ts` was replaced
by a column `day`: the row of the earlier index on `ts` is deleted, the row of
the index on `day` is kept, and so is a row of that name of another table. -/
theorem C19_cleanup_recognises_own_names_witness :
    laterEventsView.SkipIndices = false ∧ laterEventsView.UnsafeDropOrphanIndices = true ∧
    (∀ d ∈ laterEventsView.Columns, d.WithIndex = true → quoteChar ∉ d.Name.data) ∧
    cleanupDeletes laterEventsView ⟨"index", tsColumn.IndexName, "events_raw"⟩ = true ∧
    cleanupDeletes laterEventsView
      ⟨"index", (ColumnDef.mk "day" "json_extract(raw,'$.day')" true).IndexName,
        "events_raw"⟩ = false ∧
    cleanupDeletes laterEventsView ⟨"index", tsColumn.IndexName, "audit_raw"⟩ = false ∧
    (cleanupDeletes laterEventsView
        ⟨"index", tsColumn.IndexName, laterEventsView.Name ++ "_raw"⟩ = true ↔
      ∀ d ∈ laterEventsView.Columns, d.WithIndex = true →
        d.Name ≠ tsColumn.Name ∨
          sha1Sum (bytesOf d.Expr) ≠ sha1Sum (bytesOf tsColumn.Expr)) :=
  ⟨rfl, rfl, by decide, by decide!, by decide!, by decide!,
    ((C19_cleanup_recognises_own_names tsColumn).2.2 laterEventsView rfl rfl
      (by decide)).2.2.2.1⟩

end Recordlite
